import Mathlib

/-!
Verification development for the Dito reverse proxy (Go sources).

Each section embeds one part of the Go code as executable Lean definitions:
the writer package LimitedBuffer, the handlers package middleware chain and
response-limit interceptor, the transport package header rewriting and
transport cache, and the config package validation.  Machine integers are
modelled as Nat/Int (the Go code only ever holds non-negative sizes in the
Nat-modelled fields); byte slices are modelled as lists.
-/

set_option maxHeartbeats 1000000

namespace Dito

/-! ## writer.LimitedBuffer (writer/limited_buffer.go)

Model of the Go struct: `buffer` is the contents of the inner bytes.Buffer,
`written`, `maxSize` are the Go int fields (always non-negative in this code,
hence Nat), `totalSize` the int64 counter. -/

/-- Error returned by LimitedBuffer.Write: Go ErrBufferFull. -/
inductive BufErr where
  | bufferFull
deriving DecidableEq, Repr

structure LimitedBuffer where
  maxSize   : Nat
  buffer    : List Nat
  written   : Nat
  overflow  : Bool
  totalSize : Nat
deriving DecidableEq, Repr

/-- Go NewLimitedBuffer: zero value except maxSize. -/
def NewLimitedBuffer (maxSize : Nat) : LimitedBuffer :=
  { maxSize := maxSize, buffer := [], written := 0, overflow := false, totalSize := 0 }

/-- Go LimitedBuffer.Write.  Returns the new buffer, the accepted byte count
and the error.  Go computes `available := maxSize - written` as int and tests
`available <= 0`; with the Nat model the truncated subtraction is 0 exactly in
that case. -/
def LimitedBuffer.Write (lb : LimitedBuffer) (p : List Nat) :
    LimitedBuffer × Nat × Option BufErr :=
  let lb := { lb with totalSize := lb.totalSize + p.length }
  if lb.maxSize = 0 then
    ({ lb with overflow := true }, 0, some .bufferFull)
  else if lb.written + p.length > lb.maxSize then
    let available := lb.maxSize - lb.written
    if available = 0 then
      ({ lb with overflow := true }, 0, some .bufferFull)
    else
      let chunk := p.take available
      ({ lb with buffer := lb.buffer ++ chunk,
                 written := lb.written + chunk.length,
                 overflow := true },
       chunk.length, some .bufferFull)
  else
    ({ lb with buffer := lb.buffer ++ p, written := lb.written + p.length },
     p.length, none)

/-- Go LimitedBuffer.Len (returns the `written` field). -/
def LimitedBuffer.Len (lb : LimitedBuffer) : Nat := lb.written

/-- Go LimitedBuffer.IsOverflow. -/
def LimitedBuffer.IsOverflow (lb : LimitedBuffer) : Bool := lb.overflow

/-- Go LimitedBuffer.TotalSize. -/
def LimitedBuffer.TotalSize (lb : LimitedBuffer) : Nat := lb.totalSize

/-- Go LimitedBuffer.Clone: copies maxSize and totalSize, copies the buffer
content, and recomputes `written` and `overflow` from the content
(`clone.written = len(data)`, `clone.overflow = len(data) >= maxSize && maxSize > 0`). -/
def LimitedBuffer.Clone (lb : LimitedBuffer) : LimitedBuffer :=
  { maxSize   := lb.maxSize
    buffer    := lb.buffer
    written   := lb.buffer.length
    overflow  := decide (lb.maxSize ≤ lb.buffer.length ∧ 0 < lb.maxSize)
    totalSize := lb.totalSize }

/-- Applies a sequence of Write calls, keeping only the buffer states. -/
def writeMany (lb : LimitedBuffer) (ws : List (List Nat)) : LimitedBuffer :=
  ws.foldl (fun b p => (b.Write p).1) lb

/-! ## HTTP header maps (net/http.Header, net/textproto)

Headers are modelled as a function from canonical header names to value
lists; the empty list plays the role of an absent key (the Go code never
stores a key with an empty slice on these paths: Del removes the key). -/

/-- Byte validity test of net/textproto (validHeaderFieldByte): digits,
letters and the token specials, written here by code point. -/
def validHeaderFieldByte (c : Char) : Bool :=
  (48 ≤ c.val && c.val ≤ 57) ||
  (65 ≤ c.val && c.val ≤ 90) ||
  (97 ≤ c.val && c.val ≤ 122) ||
  c.val = 33 || c.val = 35 || c.val = 36 || c.val = 37 || c.val = 38 ||
  c.val = 39 || c.val = 42 || c.val = 43 || c.val = 45 || c.val = 46 ||
  c.val = 94 || c.val = 95 || c.val = 96 || c.val = 124 || c.val = 126

/-- Lowers an ASCII uppercase letter, as the Go canonicaliser does. -/
def toLowerByte (c : Char) : Char :=
  if 65 ≤ c.val && c.val ≤ 90 then Char.ofNat (c.toNat + 32) else c

/-- Uppers an ASCII lowercase letter, as the Go canonicaliser does. -/
def toUpperByte (c : Char) : Char :=
  if 97 ≤ c.val && c.val ≤ 122 then Char.ofNat (c.toNat - 32) else c

/-- Character loop of net/textproto canonicalMIMEHeaderKey: upper-case at the
start and after a hyphen, lower-case elsewhere. -/
def canonChars : Bool → List Char → List Char
  | _, [] => []
  | upper, c :: rest =>
      let c := if upper then toUpperByte c else toLowerByte c
      c :: canonChars (c == '-') rest

/-- Go textproto.CanonicalMIMEHeaderKey: returns the input unchanged when any
byte is invalid, otherwise canonicalises case. -/
def canonicalMIMEHeaderKey (s : String) : String :=
  if s.toList.all validHeaderFieldByte then ⟨canonChars true s.toList⟩ else s

/-- Header map: canonical name to list of values; `[]` means absent. -/
abbrev Headers := String → List String

def emptyHeaders : Headers := fun _ => []

/-- Go http.Header.Set: canonicalises the key and replaces the values. -/
def Headers.set (h : Headers) (k v : String) : Headers :=
  fun q => if q = canonicalMIMEHeaderKey k then [v] else h q

/-- Go http.Header.Del: canonicalises the key and removes it. -/
def Headers.del (h : Headers) (k : String) : Headers :=
  fun q => if q = canonicalMIMEHeaderKey k then [] else h q

/-- Go http.Header.Get: first value under the canonical key, or "". -/
def Headers.get (h : Headers) (k : String) : String :=
  match h (canonicalMIMEHeaderKey k) with
  | [] => ""
  | v :: _ => v

/-! ## Configuration structures (config/config.go) -/

/-- Go config.HTTPTransportConfig.  Durations are int64 nanoseconds, ints are
Go int: both modelled as Int.  Field order matters: json.Marshal emits the
fields in declaration order (the struct has no json tags, so the Go field
names are the JSON keys). -/
structure HTTPTransportConfig where
  IdleConnTimeout       : Int
  MaxIdleConns          : Int
  MaxIdleConnsPerHost   : Int
  MaxConnsPerHost       : Int
  TLSHandshakeTimeout   : Int
  ResponseHeaderTimeout : Int
  ExpectContinueTimeout : Int
  DisableCompression    : Bool
  ForceHTTP2            : Bool
  DialTimeout           : Int
  KeepAlive             : Int
  CertFile              : List Char
  KeyFile               : List Char
  CaFile                : List Char
deriving DecidableEq, Repr

/-- Go config.LocationConfig, restricted to the fields the verified paths
read.  `transport` models the optional *TransportConfig (its single HTTP
field inlined). -/
structure LocationConfig where
  path : String
  targetURL : String
  replacePath : Bool
  additionalHeaders : List (String × String)
  excludedHeaders : List String
  middlewares : List String
  transport : Option HTTPTransportConfig
  maxResponseBodySize : Int
deriving Repr

/-! ## Request model and header rewriting (handlers createDirector,
transport Caronte.AddHeaders) -/

/-- Slice of http.Request that the director and AddHeaders read or write.
`tls` is whether r.TLS is non-nil on the inbound request; `requestID` the
request id stored in the request context ("" when absent, as getRequestID
returns). -/
structure Request where
  urlScheme : String
  urlHost : String
  urlPath : String
  rawQuery : String
  host : String
  remoteAddr : String
  tls : Bool
  requestID : String
  header : Headers

/-- Go helper contains (transport package): linear membership scan. -/
def containsStr (slice : List String) (item : String) : Bool :=
  match slice with
  | [] => false
  | s :: rest => if s = item then true else containsStr rest item

/-- Go strings.TrimPrefix. -/
def trimPrefixStr (s pre : String) : String :=
  if pre.isPrefixOf s then s.drop pre.length else s

/-- Go strings.TrimSuffix. -/
def trimSuffixStr (s suf : String) : String :=
  if s.endsWith suf then s.dropRight suf.length else s

/-- Go handlers.joinPaths: exactly one slash between the segments. -/
def joinPaths (base additional : String) : String :=
  trimSuffixStr base "/" ++ "/" ++ trimPrefixStr additional "/"

/-- Go handlers.sanitizeHeaders: removes the four hop-by-hop headers. -/
def sanitizeHeaders (h : Headers) : Headers :=
  (((h.del "Proxy-Connection").del "Proxy-Authenticate").del "Proxy-Authorization").del "Connection"

/-- Parsed target URL as used by the director. -/
structure TargetURL where
  scheme : String
  host : String
  path : String
deriving Repr

/-- Go handlers.createDirector: rewrites scheme, host, path, query and Host,
propagates X-Request-ID when known, and strips hop-by-hop headers. -/
def createDirector (targetURL : TargetURL) (location : LocationConfig)
    (originalReq : Request) (req : Request) : Request :=
  let req := { req with urlScheme := targetURL.scheme, urlHost := targetURL.host }
  let req :=
    if location.replacePath then { req with urlPath := targetURL.path }
    else { req with urlPath :=
            joinPaths targetURL.path (trimPrefixStr originalReq.urlPath location.path) }
  let req := { req with rawQuery := originalReq.rawQuery }
  let req := { req with host := targetURL.host }
  let req :=
    if req.requestID ≠ "" then
      { req with header := req.header.set "X-Request-ID" req.requestID }
    else req
  { req with header := sanitizeHeaders req.header }

/-- Go map lookup on the additional-headers map (modelled as a list with
distinct keys). -/
def lookupMap (m : List (String × String)) (k : String) : Option String :=
  match m with
  | [] => none
  | (k2, v) :: rest => if k2 = k then some v else lookupMap rest k

def XForwardedFor : String := "X-Forwarded-For"
def XForwardedProto : String := "X-Forwarded-Proto"
def XForwardedHost : String := "X-Forwarded-Host"

/-- Block 1 of Go transport.Caronte.AddHeaders: remove excluded headers. -/
def delExcludedHeaders (location : LocationConfig) (req : Request) : Request :=
  { req with header := location.excludedHeaders.foldl (fun h k => h.del k) req.header }

/-- Block 2 of AddHeaders: add or modify the configured additional headers. -/
def setAdditionalHeaders (location : LocationConfig) (req : Request) : Request :=
  { req with header := location.additionalHeaders.foldl (fun h kv => h.set kv.1 kv.2) req.header }

/-- Block 3 of AddHeaders: set the Host field when additional_headers carry a
Host entry (a raw Go map lookup). -/
def setHostOverride (location : LocationConfig) (req : Request) : Request :=
  match lookupMap location.additionalHeaders "Host" with
  | some hostHeader => { req with host := hostHeader }
  | none => req

/-- Block 4 of AddHeaders: append to or set X-Forwarded-For from the remote
address unless the name is excluded (raw membership test). -/
def setXForwardedFor (location : LocationConfig) (req : Request) : Request :=
  if containsStr location.excludedHeaders XForwardedFor then req
  else
    let clientIP := req.remoteAddr
    match req.header XForwardedFor with
    | [] => { req with header := req.header.set XForwardedFor clientIP }
    | prior0 :: _ =>
        { req with header := req.header.set XForwardedFor (prior0 ++ ", " ++ clientIP) }

/-- Block 5 of AddHeaders: set X-Forwarded-Proto from the request URL scheme
unless excluded. -/
def setXForwardedProto (location : LocationConfig) (req : Request) : Request :=
  if containsStr location.excludedHeaders XForwardedProto then req
  else { req with header := req.header.set XForwardedProto req.urlScheme }

/-- Block 6 of AddHeaders: set X-Forwarded-Host from the current Host unless
excluded. -/
def setXForwardedHost (location : LocationConfig) (req : Request) : Request :=
  if containsStr location.excludedHeaders XForwardedHost then req
  else { req with header := req.header.set XForwardedHost req.host }

/-- Go transport.Caronte.AddHeaders: deletes excluded headers, sets additional
headers, overrides Host from additional_headers, then fills the
X-Forwarded-For / X-Forwarded-Proto / X-Forwarded-Host headers unless their
names appear in the excluded list; the six blocks run in source order. -/
def AddHeaders (location : LocationConfig) (req : Request) : Request :=
  setXForwardedHost location (setXForwardedProto location (setXForwardedFor location
    (setHostOverride location (setAdditionalHeaders location (delExcludedHeaders location req)))))

/-- Value that a left fold of Set operations leaves under key q: the last
additional entry whose canonical key is q, if any. -/
def lastAdditionalValue (entries : List (String × String)) (q : String) : Option String :=
  entries.foldl (fun acc kv => if q = canonicalMIMEHeaderKey kv.1 then some kv.2 else acc) none

/-- Whether some excluded name canonicalises to the key q (the keys a fold
of Del operations removes). -/
def excludedDeletes (names : List String) (q : String) : Bool :=
  names.any (fun k => q = canonicalMIMEHeaderKey k)

/-- Host value after the additional_headers Host override: the override when
present, the current Host otherwise. -/
def hostAfterOverride (location : LocationConfig) (req : Request) : String :=
  match lookupMap location.additionalHeaders "Host" with
  | some v => v
  | none => req.host

/-- Header value after the excluded-deletion and additional-set blocks. -/
def baseHeaderValue (location : LocationConfig) (req : Request) (q : String) : List String :=
  match lastAdditionalValue location.additionalHeaders q with
  | some v => [v]
  | none => if excludedDeletes location.excludedHeaders q then [] else req.header q

/-- X-Forwarded-For value the fourth block produces: the remote address,
appended to the first prior value when one survives the first two blocks. -/
def xffNewValue (location : LocationConfig) (req : Request) : String :=
  match baseHeaderValue location req "X-Forwarded-For" with
  | [] => req.remoteAddr
  | prior0 :: _ => prior0 ++ ", " ++ req.remoteAddr

/-- Outgoing request of one proxied call: the reverse proxy clones the
inbound request, runs the director on it, and the Caronte round-tripper then
applies AddHeaders before dispatch. -/
def outgoingRequest (targetURL : TargetURL) (location : LocationConfig)
    (original : Request) : Request :=
  AddHeaders location (createDirector targetURL location original original)

/-! ## Middleware chain (handlers.applyMiddlewares) -/

/-- Loaded plugin as the chain sees it: a name and an optional middleware
factory result (Go MiddlewareFunc may return nil). -/
structure Plugin (H : Type) where
  name : String
  middlewareFunc : Option (H → H)

/-- Inner loop of applyMiddlewares: scans the plugin list in order and breaks
on the first plugin whose name matches and whose middleware is non-nil; a
matching plugin with a nil middleware does not stop the scan. -/
def findPluginMiddleware {H : Type} (plugins : List (Plugin H)) (middlewareName : String) :
    Option (H → H) :=
  match plugins with
  | [] => none
  | p :: rest =>
    if p.name = middlewareName then
      match p.middlewareFunc with
      | some mw => some mw
      | none => findPluginMiddleware rest middlewareName
    else findPluginMiddleware rest middlewareName

/-- Go criticalMiddlewares map: auth and security must be present. -/
def criticalMiddlewares (middlewareName : String) : Bool :=
  middlewareName = "auth" || middlewareName = "security"

/-- Reverse-order loop of applyMiddlewares: the last configured middleware is
applied first (innermost); missing critical names accumulate in iteration
order. -/
def applyMiddlewaresLoop {H : Type} (plugins : List (Plugin H)) (names : List String)
    (handler : H) : H × List String :=
  match names with
  | [] => (handler, [])
  | n :: rest =>
      let hm := applyMiddlewaresLoop plugins rest handler
      match findPluginMiddleware plugins n with
      | some mw => (mw hm.1, hm.2)
      | none => (hm.1, if criticalMiddlewares n then hm.2 ++ [n] else hm.2)

/-- Go handlers.applyMiddlewares: wraps the handler with the configured
middlewares (last configured innermost) and substitutes the blocking handler
when critical middlewares are missing. -/
def applyMiddlewares {H : Type} (plugins : List (Plugin H)) (location : LocationConfig)
    (handler : H) (createBlockingHandler : List String → H) : H :=
  let hm := applyMiddlewaresLoop plugins location.middlewares handler
  if hm.2.length > 0 then createBlockingHandler hm.2 else hm.1

/-! ## Decimal formatting and parsing (strconv) -/

/-- Decimal digit as a character. -/
def digitChar (k : Nat) : Char := Char.ofNat (48 + k)

/-- Decimal digits of a natural number, most significant first ("0" for 0). -/
def natDigits (n : Nat) : List Char :=
  if _h : n < 10 then [digitChar n]
  else natDigits (n / 10) ++ [digitChar (n % 10)]
decreasing_by exact Nat.div_lt_self (by omega) (by norm_num)

/-- Go strconv.FormatInt base 10 (also the fmt %d verb). -/
def intToChars (i : Int) : List Char :=
  if i < 0 then '-' :: natDigits (-i).toNat else natDigits i.toNat

def intToString (i : Int) : String := ⟨intToChars i⟩

def isDigitChar (c : Char) : Bool := 48 ≤ c.val && c.val ≤ 57

/-- Go strconv.ParseInt with base 10 and bitSize 64: an optional sign, then
one or more digits and nothing else, with the value required to fit int64;
any other input (or an out-of-range value) yields an error, modelled none. -/
def parseInt64 (s : String) : Option Int :=
  let cs := s.toList
  let signRest : Bool × List Char :=
    match cs with
    | '-' :: rest => (true, rest)
    | '+' :: rest => (false, rest)
    | _ => (false, cs)
  let ds := signRest.2
  if ds = [] then none
  else if ds.all isDigitChar then
    let n : Nat := ds.foldl (fun acc c => acc * 10 + (c.toNat - 48)) 0
    if signRest.1 then
      if n ≤ 2 ^ 63 then some (-(n : Int)) else none
    else
      if n ≤ 2 ^ 63 - 1 then some (n : Int) else none
  else none

/-! ## Response limit interceptor (handlers.responseLimitInterceptor)

The embedded http.ResponseWriter is modelled as a recording `Underlying`:
its header map (the same map `rli.Header()` returns), the list of status
codes passed to WriteHeader (to observe how many times headers are emitted)
and the concatenation of all body bytes written downstream. -/

/-- Error value handlers.ErrResponseTooLarge. -/
inductive WriteResultErr where
  | responseTooLarge
deriving DecidableEq, Repr

structure Underlying where
  header : Headers
  statusEvents : List Int
  body : List Char

structure responseLimitInterceptor where
  underlying : Underlying
  maxSize : Int
  written : Int
  limitExceeded : Bool
  headerWritten : Bool
  path : String
  buffer : List Char
  statusCode : Int
  originalHeaders : Headers

/-- Go newResponseLimitInterceptor. -/
def newResponseLimitInterceptor (u : Underlying) (maxSize : Int) (path : String) :
    responseLimitInterceptor :=
  { underlying := u, maxSize := maxSize, written := 0, limitExceeded := false,
    headerWritten := false, path := path, buffer := [], statusCode := 200,
    originalHeaders := emptyHeaders }

/-- Model of the Go loop [for k, v := range src : dst[k] = v] on header
maps: keys present in src win, all other keys keep their dst values. -/
def mergeHeaders (dst src : Headers) : Headers :=
  fun k => match src k with
           | [] => dst k
           | v => v

/-- Exact bytes of the 413 JSON error body built by sendLimitExceededError
with fmt.Sprintf. -/
def errorResponseBody (limit : Int) (path : String) : List Char :=
  "\x7b\"error\":\x7b\"code\":".toList ++ intToChars 413 ++
  ",\"message\":\"".toList ++ "Response body size exceeds limit".toList ++
  "\",\"details\":\x7b\"limit_bytes\":".toList ++ intToChars limit ++
  ",\"path\":\"".toList ++ path.toList ++ "\"\x7d\x7d\x7d".toList

/-- Go responseLimitInterceptor.checkContentLength: reads Content-Length from
the snapshot, parses it, and flags the limit as exceeded when it is over
maxSize.  Returns the updated state and the Bool result. -/
def responseLimitInterceptor.checkContentLength (rli : responseLimitInterceptor) :
    responseLimitInterceptor × Bool :=
  let cl := rli.originalHeaders.get "Content-Length"
  if cl ≠ "" then
    match parseInt64 cl with
    | some length =>
        if length > rli.maxSize then ({ rli with limitExceeded := true }, true)
        else (rli, false)
    | none => (rli, false)
  else (rli, false)

/-- Go responseLimitInterceptor.sendLimitExceededError: resets the buffer,
marks headers written, clears every key of the shared header map, sets the
four error headers, writes 413 once and the JSON body. -/
def responseLimitInterceptor.sendLimitExceededError (rli : responseLimitInterceptor) :
    responseLimitInterceptor :=
  if rli.headerWritten then rli
  else
    let rli := { rli with buffer := [], headerWritten := true }
    let errorResponse := errorResponseBody rli.maxSize rli.path
    let h : Headers := fun _ => []
    let h := h.set "Content-Type" "application/json; charset=utf-8"
    let h := h.set "X-Content-Type-Options" "nosniff"
    let h := h.set "Cache-Control" "no-cache, no-store, must-revalidate"
    let h := h.set "Content-Length" (intToString (errorResponse.length : Int))
    { rli with underlying :=
        { header := h
          statusEvents := rli.underlying.statusEvents ++ [413]
          body := rli.underlying.body ++ errorResponse } }

/-- Go responseLimitInterceptor.flushBuffer: on first call, restores the
header snapshot into the underlying map, sets Content-Length from the
buffered size when non-empty, writes the stored status code and copies the
buffer downstream. -/
def responseLimitInterceptor.flushBuffer (rli : responseLimitInterceptor) :
    responseLimitInterceptor :=
  if rli.headerWritten then rli
  else
    let rli := { rli with headerWritten := true }
    let h := mergeHeaders rli.underlying.header rli.originalHeaders
    let h :=
      if 0 < rli.buffer.length then
        h.set "Content-Length" (intToString (rli.buffer.length : Int))
      else h
    let u := { rli.underlying with
                header := h
                statusEvents := rli.underlying.statusEvents ++ [rli.statusCode] }
    let u := if 0 < rli.buffer.length then { u with body := u.body ++ rli.buffer } else u
    { rli with underlying := u,
               buffer := if 0 < rli.buffer.length then [] else rli.buffer }

/-- Go responseLimitInterceptor.WriteHeader: snapshots headers, stores the
status code, and rejects on an over-limit Content-Length; headers are not
forwarded yet. -/
def responseLimitInterceptor.WriteHeader (rli : responseLimitInterceptor)
    (statusCode : Int) : responseLimitInterceptor :=
  if rli.headerWritten then rli
  else
    let rli := { rli with
      originalHeaders := mergeHeaders rli.originalHeaders rli.underlying.header }
    let rli := { rli with statusCode := statusCode }
    let cb := rli.checkContentLength
    if cb.2 then cb.1.sendLimitExceededError else cb.1

/-- Go responseLimitInterceptor.Write: buffers data, enforces the size
limit, and flushes the buffer immediately while headers are unwritten. -/
def responseLimitInterceptor.Write (rli : responseLimitInterceptor) (b : List Char) :
    responseLimitInterceptor × Nat × Option WriteResultErr :=
  if rli.limitExceeded then (rli, 0, some .responseTooLarge)
  else
    let step1 : responseLimitInterceptor × Bool :=
      if rli.headerWritten then (rli, false)
      else
        let r := { rli with
          originalHeaders := mergeHeaders rli.originalHeaders rli.underlying.header }
        r.checkContentLength
    if step1.2 then (step1.1.sendLimitExceededError, 0, some .responseTooLarge)
    else
      let rli := step1.1
      let newTotal := rli.written + b.length
      if 0 < rli.maxSize ∧ rli.maxSize < newTotal then
        let rli := { rli with limitExceeded := true }
        if rli.headerWritten then (rli, 0, some .responseTooLarge)
        else (rli.sendLimitExceededError, 0, some .responseTooLarge)
      else
        let rli := { rli with buffer := rli.buffer ++ b, written := newTotal }
        if rli.headerWritten then (rli, b.length, none)
        else (rli.flushBuffer, b.length, none)

/-- Go responseLimitInterceptor.Flush: forwards the buffer only while the
limit is not exceeded and headers are unwritten (the underlying Flush call
moves no recorded data). -/
def responseLimitInterceptor.Flush (rli : responseLimitInterceptor) :
    responseLimitInterceptor :=
  if rli.limitExceeded = false ∧ rli.headerWritten = false ∧ 0 < rli.buffer.length then
    rli.flushBuffer
  else rli

/-- Events the reverse proxy can play against the interceptor: header map
mutations through the shared map, WriteHeader, Write, Flush. -/
inductive ProxyOp where
  | hset (k v : String)
  | hdel (k : String)
  | writeHeader (code : Int)
  | write (b : List Char)
  | flush

def stepOp (rli : responseLimitInterceptor) (op : ProxyOp) : responseLimitInterceptor :=
  match op with
  | .hset k v =>
      { rli with underlying := { rli.underlying with header := rli.underlying.header.set k v } }
  | .hdel k =>
      { rli with underlying := { rli.underlying with header := rli.underlying.header.del k } }
  | .writeHeader code => rli.WriteHeader code
  | .write b => (rli.Write b).1
  | .flush => rli.Flush

def runOps (rli : responseLimitInterceptor) (ops : List ProxyOp) : responseLimitInterceptor :=
  ops.foldl stepOp rli

/-- Interceptor as handleLocationMatch builds it: fresh downstream recorder,
the effective route limit and the request path. -/
def initInterceptor (limit : Int) (path : String) : responseLimitInterceptor :=
  newResponseLimitInterceptor
    { header := emptyHeaders, statusEvents := [], body := [] } limit path

/-- Concatenation of the upstream body chunks of an op sequence. -/
def upstreamBytes (ops : List ProxyOp) : List Char :=
  (ops.filterMap (fun op => match op with | .write b => some b | _ => none)).flatten

/-- Runs a sequence of Write calls and collects each returned
(count, error) pair. -/
def runWrites (rli : responseLimitInterceptor) (chunks : List (List Char)) :
    responseLimitInterceptor × List (Nat × Option WriteResultErr) :=
  match chunks with
  | [] => (rli, [])
  | c :: rest =>
      let r := rli.Write c
      let rr := runWrites r.1 rest
      (rr.1, r.2 :: rr.2)

/-- Upstream bytes a single op contributes. -/
def chunkOf (op : ProxyOp) : List Char :=
  match op with
  | .write b => b
  | _ => []

/-- State invariant of the interceptor relative to the bytes offered so far:
either no error was emitted - downstream body plus buffer is a prefix of the
offered bytes (the whole of them while no limit was exceeded), the written
counter counts them and stays within the limit, nothing reached the client
before the first flush, and limitExceeded implies headers written - or the
413 error was emitted and the downstream saw exactly one status write. -/
def interceptorInv (L : Int) (path : String) (hist : List Char)
    (s : responseLimitInterceptor) : Prop :=
  s.maxSize = L ∧ s.path = path ∧
  ((s.underlying.body ++ s.buffer <+: hist ∧
    s.written = ((s.underlying.body.length + s.buffer.length : Nat) : Int) ∧
    s.written ≤ L ∧
    (s.limitExceeded = false → s.underlying.body ++ s.buffer = hist) ∧
    (s.limitExceeded = true → s.headerWritten = true) ∧
    (s.headerWritten = false →
      s.underlying.body = [] ∧ s.underlying.statusEvents = [])) ∨
   (s.underlying.body = errorResponseBody L path ∧ s.buffer = [] ∧
    s.limitExceeded = true ∧ s.headerWritten = true ∧
    s.underlying.statusEvents = [413]))

/-- Conditions under which the next op makes the interceptor reject while
headers are unflushed: an over-limit advertised Content-Length seen at
WriteHeader or at the first body write, or a body write that would push the
cumulative size over a positive limit. -/
def wouldRejectNow (s : responseLimitInterceptor) (op : ProxyOp) : Bool :=
  match op with
  | .writeHeader _ =>
      (({ s with originalHeaders := mergeHeaders s.originalHeaders s.underlying.header
        }).checkContentLength).2
  | .write b =>
      (({ s with originalHeaders := mergeHeaders s.originalHeaders s.underlying.header
        }).checkContentLength).2 ||
      decide (0 < s.maxSize ∧ s.maxSize < s.written + b.length)
  | _ => false

/-! ## Configuration validation (config.validateAndSetDefaults) -/

structure ResponseLimits where
  MaxResponseBodySize : Int
deriving DecidableEq, Repr

structure PluginsConfig where
  Directory : String
  PublicKeyPath : String
  PublicKeyHash : String
deriving DecidableEq, Repr

structure MetricsConfig where
  Enabled : Bool
  Path : String
deriving DecidableEq, Repr

/-- Go config.ProxyConfig, restricted to the fields validateAndSetDefaults
reads or writes.  `transport` holds the single HTTP field of the wrapped
TransportConfig; `requestTimeout` is a duration in nanoseconds. -/
structure ProxyConfig where
  responseLimits : ResponseLimits
  requestTimeout : Int
  locations : List LocationConfig
  plugins : PluginsConfig
  metrics : MetricsConfig
  transport : HTTPTransportConfig
deriving Repr

/-- Go config.validateAndSetDefaults, with the same check order.  A global
max_response_body_size of 0 is replaced by the 100MB default before the
negativity check.  Error strings keep the Go wording (the location message
drops the quote marks Go puts around the path). -/
def validateAndSetDefaults (config : ProxyConfig) : Except String ProxyConfig :=
  let config :=
    if config.responseLimits.MaxResponseBodySize = 0 then
      { config with responseLimits := { MaxResponseBodySize := 104857600 } }
    else config
  if config.responseLimits.MaxResponseBodySize < 0 then
    .error "global max_response_body_size cannot be negative"
  else
    let config :=
      if config.requestTimeout = 0 then { config with requestTimeout := 30000000000 }
      else config
    match config.locations.find? (fun loc => decide (loc.maxResponseBodySize < 0)) with
    | some loc =>
        .error ("location " ++ loc.path ++ ": max_response_body_size cannot be negative")
    | none =>
      if config.plugins.Directory ≠ "" ∧ config.plugins.PublicKeyPath = "" then
        .error "plugins.public_key_path is required when plugins.directory is set"
      else if config.plugins.Directory ≠ "" ∧ config.plugins.PublicKeyHash = "" then
        .error "plugins.public_key_hash is required when plugins.directory is set"
      else
        let config :=
          if config.metrics.Enabled ∧ config.metrics.Path = "" then
            { config with metrics := { config.metrics with Path := "/metrics" } }
          else config
        if config.transport.IdleConnTimeout < 0 ∨ config.transport.TLSHandshakeTimeout < 0 ∨
           config.transport.ResponseHeaderTimeout < 0 ∨ config.transport.ExpectContinueTimeout < 0 ∨
           config.transport.DialTimeout < 0 ∨ config.transport.KeepAlive < 0 then
          .error "transport timeouts must be non-negative"
        else .ok config

/-- Go config.LocationConfig.GetEffectiveMaxResponseBodySize: the location
value when positive, the global limit otherwise. -/
def LocationConfig.GetEffectiveMaxResponseBodySize (lc : LocationConfig) (globalLimit : Int) : Int :=
  if 0 < lc.maxResponseBodySize then lc.maxResponseBodySize else globalLimit

/-- Condition under which handleLocationMatch wraps the response writer in a
responseLimitInterceptor: the effective limit is positive. -/
def limitInterceptorApplied (config : ProxyConfig) (lc : LocationConfig) : Bool :=
  decide (0 < lc.GetEffectiveMaxResponseBodySize config.responseLimits.MaxResponseBodySize)

/-! ## Transport cache (transport.GetTransport, generateTransportKey)

The Go key is the SHA-256 of json.Marshal of the effective
HTTPTransportConfig, printed in hex.  The model keeps the canonical JSON
serialisation itself as the key: the hash step renames every key injectively
except for SHA-256 collisions, which the model (like the code) assumes do
not occur.  Built transports are identified by a creation counter, standing
in for Go pointer identity of the createTransportFromConfig result. -/

/-- Lower-case hexadecimal digit. -/
def hexDigitChar (k : Nat) : Char :=
  if k < 10 then Char.ofNat (48 + k) else Char.ofNat (87 + k)

/-- Per-character escaping of encoding/json appendString with the default
escapeHTML behaviour of json.Marshal. -/
def escChar (c : Char) : List Char :=
  if c = '"' then ['\\', '"']
  else if c = '\\' then ['\\', '\\']
  else if c = '<' then "\\u003c".toList
  else if c = '>' then "\\u003e".toList
  else if c = '&' then "\\u0026".toList
  else if c = '\n' then ['\\', 'n']
  else if c = '\r' then ['\\', 'r']
  else if c = '\t' then ['\\', 't']
  else if c.val < 32 then
    ['\\', 'u', '0', '0', hexDigitChar (c.toNat / 16), hexDigitChar (c.toNat % 16)]
  else if c.val = 0x2028 then "\\u2028".toList
  else if c.val = 0x2029 then "\\u2029".toList
  else [c]

def escStr (s : List Char) : List Char := (s.map escChar).flatten

def encBool (b : Bool) : List Char := if b then "true".toList else "false".toList

def encStrField (s : List Char) : List Char := '"' :: (escStr s ++ ['"'])

/-- JSON bytes of json.Marshal on config.HTTPTransportConfig: fields in
declaration order under their Go names, durations and ints as decimal
numbers, strings escaped. -/
def encodeTransportConfig (c : HTTPTransportConfig) : List Char :=
  "\x7b\"IdleConnTimeout\":".toList ++ intToChars c.IdleConnTimeout ++
  ",\"MaxIdleConns\":".toList ++ intToChars c.MaxIdleConns ++
  ",\"MaxIdleConnsPerHost\":".toList ++ intToChars c.MaxIdleConnsPerHost ++
  ",\"MaxConnsPerHost\":".toList ++ intToChars c.MaxConnsPerHost ++
  ",\"TLSHandshakeTimeout\":".toList ++ intToChars c.TLSHandshakeTimeout ++
  ",\"ResponseHeaderTimeout\":".toList ++ intToChars c.ResponseHeaderTimeout ++
  ",\"ExpectContinueTimeout\":".toList ++ intToChars c.ExpectContinueTimeout ++
  ",\"DisableCompression\":".toList ++ encBool c.DisableCompression ++
  ",\"ForceHTTP2\":".toList ++ encBool c.ForceHTTP2 ++
  ",\"DialTimeout\":".toList ++ intToChars c.DialTimeout ++
  ",\"KeepAlive\":".toList ++ intToChars c.KeepAlive ++
  ",\"CertFile\":".toList ++ encStrField c.CertFile ++
  ",\"KeyFile\":".toList ++ encStrField c.KeyFile ++
  ",\"CaFile\":".toList ++ encStrField c.CaFile ++
  "\x7d".toList

/-- Go transport.generateTransportKey with the SHA-256 step elided (see the
section comment): the canonical serialisation is the cache key. -/
def generateTransportKey (config : HTTPTransportConfig) : List Char :=
  encodeTransportConfig config

/-- Transport cache state: association list from key to transport instance
id, plus the id counter for freshly built transports. -/
structure TransportCache where
  transports : List (List Char × Nat)
  nextId : Nat
deriving DecidableEq, Repr

def lookupTransport : List (List Char × Nat) → List Char → Option Nat
  | [], _ => none
  | (k, v) :: rest, key => if k = key then some v else lookupTransport rest key

def NewTransportCache : TransportCache := { transports := [], nextId := 0 }

/-- Effective transport settings of GetTransport: the location override when
present, the global configuration otherwise. -/
def effectiveTransportConfig (location : LocationConfig)
    (genericTransportConfig : HTTPTransportConfig) : HTTPTransportConfig :=
  match location.transport with
  | some t => t
  | none => genericTransportConfig

/-- Go TransportCache.GetTransport: key the effective settings, return the
cached instance on a hit, otherwise build a fresh instance and publish it
(LoadOrStore).  Returns the instance id and the updated cache. -/
def TransportCache.GetTransport (c : TransportCache) (location : LocationConfig)
    (genericTransportConfig : HTTPTransportConfig) : Nat × TransportCache :=
  let transportConfig := effectiveTransportConfig location genericTransportConfig
  let key := generateTransportKey transportConfig
  match lookupTransport c.transports key with
  | some transport => (transport, c)
  | none =>
      (c.nextId, { transports := c.transports ++ [(key, c.nextId)], nextId := c.nextId + 1 })

/-- Runs a sequence of GetTransport calls from a cache, collecting the
returned instance ids. -/
def runGetTransports (cache : TransportCache)
    (reqs : List (LocationConfig × HTTPTransportConfig)) : List Nat × TransportCache :=
  match reqs with
  | [] => ([], cache)
  | r :: rest =>
      let g := cache.GetTransport r.1 r.2
      let rr := runGetTransports g.2 rest
      (g.1 :: rr.1, rr.2)

/-! ## Decoder for the canonical serialisation (used to show the key is
injective: decoding is a left inverse of encoding). -/

/-- Drops an exact expected prefix. -/
def dropExact : List Char → List Char → Option (List Char)
  | [], s => some s
  | _ :: _, [] => none
  | p :: ps, c :: cs => if c = p then dropExact ps cs else none

/-- Consumes leading decimal digits into an accumulator. -/
def parseDigitsAcc : List Char → Nat → Nat × List Char
  | [], acc => (acc, [])
  | c :: rest, acc =>
      if isDigitChar c then parseDigitsAcc rest (acc * 10 + (c.toNat - 48))
      else (acc, c :: rest)

/-- Parses an optionally signed decimal integer. -/
def parseIntChars : List Char → Option (Int × List Char)
  | [] => none
  | c :: rest =>
      if c = '-' then
        match rest with
        | [] => none
        | d :: _ =>
            if isDigitChar d then
              let p := parseDigitsAcc rest 0
              some (-(p.1 : Int), p.2)
            else none
      else if isDigitChar c then
        let p := parseDigitsAcc (c :: rest) 0
        some ((p.1 : Int), p.2)
      else none

def parseBoolChars (s : List Char) : Option (Bool × List Char) :=
  match dropExact "true".toList s with
  | some r => some (true, r)
  | none =>
      match dropExact "false".toList s with
      | some r => some (false, r)
      | none => none

def hexVal (c : Char) : Nat := if isDigitChar c then c.toNat - 48 else c.toNat - 87

/-- Parses an escaped JSON string body up to the closing quote. -/
def parseQuotedBody : List Char → Option (List Char × List Char)
  | [] => none
  | '"' :: rest => some ([], rest)
  | '\\' :: '"' :: rest => (parseQuotedBody rest).map (fun p => ('"' :: p.1, p.2))
  | '\\' :: '\\' :: rest => (parseQuotedBody rest).map (fun p => ('\\' :: p.1, p.2))
  | '\\' :: 'n' :: rest => (parseQuotedBody rest).map (fun p => ('\n' :: p.1, p.2))
  | '\\' :: 'r' :: rest => (parseQuotedBody rest).map (fun p => ('\r' :: p.1, p.2))
  | '\\' :: 't' :: rest => (parseQuotedBody rest).map (fun p => ('\t' :: p.1, p.2))
  | '\\' :: 'u' :: h1 :: h2 :: h3 :: h4 :: rest =>
      (parseQuotedBody rest).map
        (fun p => (Char.ofNat (((hexVal h1 * 16 + hexVal h2) * 16 + hexVal h3) * 16 + hexVal h4) :: p.1, p.2))
  | '\\' :: _ :: _ => none
  | ['\\'] => none
  | c :: rest => (parseQuotedBody rest).map (fun p => (c :: p.1, p.2))

def parseStrField : List Char → Option (List Char × List Char)
  | '"' :: rest => parseQuotedBody rest
  | _ => none

/-- Parses a labelled integer field. -/
def parseIntField (lbl : List Char) (s : List Char) : Option (Int × List Char) :=
  match dropExact lbl s with
  | none => none
  | some s1 => parseIntChars s1

/-- Parses a labelled boolean field. -/
def parseBoolField (lbl : List Char) (s : List Char) : Option (Bool × List Char) :=
  match dropExact lbl s with
  | none => none
  | some s1 => parseBoolChars s1

/-- Parses a labelled string field. -/
def parseStrLbl (lbl : List Char) (s : List Char) : Option (List Char × List Char) :=
  match dropExact lbl s with
  | none => none
  | some s1 => parseStrField s1

/-- Decodes the seven leading integer fields of the serialisation. -/
def decodeNums (s : List Char) :
    Option ((Int × Int × Int × Int × Int × Int × Int) × List Char) :=
  match parseIntField "\x7b\"IdleConnTimeout\":".toList s with
  | none => none
  | some (n1, s) =>
  match parseIntField ",\"MaxIdleConns\":".toList s with
  | none => none
  | some (n2, s) =>
  match parseIntField ",\"MaxIdleConnsPerHost\":".toList s with
  | none => none
  | some (n3, s) =>
  match parseIntField ",\"MaxConnsPerHost\":".toList s with
  | none => none
  | some (n4, s) =>
  match parseIntField ",\"TLSHandshakeTimeout\":".toList s with
  | none => none
  | some (n5, s) =>
  match parseIntField ",\"ResponseHeaderTimeout\":".toList s with
  | none => none
  | some (n6, s) =>
  match parseIntField ",\"ExpectContinueTimeout\":".toList s with
  | none => none
  | some (n7, s) => some ((n1, n2, n3, n4, n5, n6, n7), s)

/-- Decodes the flag, timing and file fields after the leading numbers. -/
def decodeRest (s : List Char) :
    Option ((Bool × Bool × Int × Int × List Char × List Char × List Char) × List Char) :=
  match parseBoolField ",\"DisableCompression\":".toList s with
  | none => none
  | some (b1, s) =>
  match parseBoolField ",\"ForceHTTP2\":".toList s with
  | none => none
  | some (b2, s) =>
  match parseIntField ",\"DialTimeout\":".toList s with
  | none => none
  | some (n8, s) =>
  match parseIntField ",\"KeepAlive\":".toList s with
  | none => none
  | some (n9, s) =>
  match parseStrLbl ",\"CertFile\":".toList s with
  | none => none
  | some (f1, s) =>
  match parseStrLbl ",\"KeyFile\":".toList s with
  | none => none
  | some (f2, s) =>
  match parseStrLbl ",\"CaFile\":".toList s with
  | none => none
  | some (f3, s) => some ((b1, b2, n8, n9, f1, f2, f3), s)

/-- Decodes the canonical serialisation back into the configuration; a left
inverse of encodeTransportConfig. -/
def decodeTransportConfig (s : List Char) : Option HTTPTransportConfig :=
  match decodeNums s with
  | none => none
  | some ((n1, n2, n3, n4, n5, n6, n7), s) =>
  match decodeRest s with
  | none => none
  | some ((b1, b2, n8, n9, f1, f2, f3), _) =>
      some { IdleConnTimeout := n1, MaxIdleConns := n2, MaxIdleConnsPerHost := n3,
             MaxConnsPerHost := n4, TLSHandshakeTimeout := n5,
             ResponseHeaderTimeout := n6, ExpectContinueTimeout := n7,
             DisableCompression := b1, ForceHTTP2 := b2,
             DialTimeout := n8, KeepAlive := n9,
             CertFile := f1, KeyFile := f2, CaFile := f3 }

/-! # Theorems -/

/-! ## LimitedBuffer: write contract (C9) and clone behaviour (C10) -/

/-- C9: for every Write of p into a LimitedBuffer with capacity C and
current length len0 (len0 ≤ C, as in every state the API produces), the
accepted count is min(len p, C − len0), the length stays ≤ C, the
total-attempted counter grows by exactly len p, a short write signals
buffer-full, and with C = 0 every write accepts zero bytes and signals
buffer-full. -/
theorem limitedBuffer_write_contract (lb : LimitedBuffer) (p : List Nat)
    (h : lb.written ≤ lb.maxSize) :
    (lb.Write p).2.1 = min p.length (lb.maxSize - lb.written) ∧
    (lb.Write p).1.written ≤ lb.maxSize ∧
    (lb.Write p).1.totalSize = lb.totalSize + p.length ∧
    ((lb.Write p).2.1 < p.length → (lb.Write p).2.2 = some BufErr.bufferFull) ∧
    (lb.maxSize = 0 → (lb.Write p).2.1 = 0 ∧ (lb.Write p).2.2 = some BufErr.bufferFull) := by
  simp only [LimitedBuffer.Write]
  split_ifs with h0 h1 h2 <;>
    simp_all [List.length_take] <;> omega

/-- Witness for the C9 theorem at a concrete buffer and input. -/
theorem limitedBuffer_write_contract_witness :
    (NewLimitedBuffer 2).written ≤ (NewLimitedBuffer 2).maxSize ∧
    (((NewLimitedBuffer 2).Write [7, 8, 9]).2.1 =
        min ([7, 8, 9] : List Nat).length ((NewLimitedBuffer 2).maxSize - (NewLimitedBuffer 2).written) ∧
      ((NewLimitedBuffer 2).Write [7, 8, 9]).1.written ≤ (NewLimitedBuffer 2).maxSize ∧
      ((NewLimitedBuffer 2).Write [7, 8, 9]).1.totalSize = (NewLimitedBuffer 2).totalSize + ([7, 8, 9] : List Nat).length ∧
      (((NewLimitedBuffer 2).Write [7, 8, 9]).2.1 < ([7, 8, 9] : List Nat).length →
        ((NewLimitedBuffer 2).Write [7, 8, 9]).2.2 = some BufErr.bufferFull) ∧
      ((NewLimitedBuffer 2).maxSize = 0 →
        ((NewLimitedBuffer 2).Write [7, 8, 9]).2.1 = 0 ∧
        ((NewLimitedBuffer 2).Write [7, 8, 9]).2.2 = some BufErr.bufferFull)) :=
  ⟨by decide, limitedBuffer_write_contract (NewLimitedBuffer 2) [7, 8, 9] (by decide)⟩

/-- Helper: Write preserves maxSize and drives written/overflow as a
function of maxSize, written, overflow and the input length only. -/
theorem write_state_congr (b1 b2 : LimitedBuffer) (p : List Nat)
    (hmax : b1.maxSize = b2.maxSize) (hw : b1.written = b2.written) :
    (b1.Write p).1.maxSize = (b2.Write p).1.maxSize ∧
    (b1.Write p).1.written = (b2.Write p).1.written ∧
    ((b1.overflow = b2.overflow) → (b1.Write p).1.overflow = (b2.Write p).1.overflow) := by
  simp only [LimitedBuffer.Write]
  split_ifs <;> simp_all

/-- Helper: writeMany congruence on the (maxSize, written) projection, and
on overflow when the start states also agree there. -/
theorem writeMany_state_congr (ws : List (List Nat)) :
    ∀ b1 b2 : LimitedBuffer, b1.maxSize = b2.maxSize → b1.written = b2.written →
    (writeMany b1 ws).maxSize = (writeMany b2 ws).maxSize ∧
    (writeMany b1 ws).written = (writeMany b2 ws).written ∧
    (b1.overflow = b2.overflow →
      (writeMany b1 ws).overflow = (writeMany b2 ws).overflow) := by
  induction ws with
  | nil => intro b1 b2 hmax hw; exact ⟨hmax, hw, fun hov => hov⟩
  | cons p rest ih =>
      intro b1 b2 hmax hw
      have hstep := write_state_congr b1 b2 p hmax hw
      have hrec := ih (b1.Write p).1 (b2.Write p).1 hstep.1 hstep.2.1
      refine ⟨hrec.1, hrec.2.1, fun hov => hrec.2.2 (hstep.2.2 hov)⟩

/-- C10 (amended): for a LimitedBuffer whose length field matches its
content size (true of every buffer built by writes alone), Clone followed by
any write sequence reaches the same final length as the original; the final
is_overflow also agrees provided the overflow flag of the original already
equals the value Clone recomputes (content ≥ capacity and capacity > 0). -/
theorem clone_writeMany_equiv (lb : LimitedBuffer) (ws : List (List Nat))
    (hlen : lb.written = lb.buffer.length) :
    (writeMany lb.Clone ws).Len = (writeMany lb ws).Len ∧
    (lb.overflow = decide (lb.maxSize ≤ lb.buffer.length ∧ 0 < lb.maxSize) →
      (writeMany lb.Clone ws).IsOverflow = (writeMany lb ws).IsOverflow) := by
  have hmax : lb.Clone.maxSize = lb.maxSize := rfl
  have hw : lb.Clone.written = lb.written := by
    simp [LimitedBuffer.Clone, hlen]
  have h := writeMany_state_congr ws lb.Clone lb hmax hw
  refine ⟨h.2.1, fun hov => h.2.2 ?_⟩
  simp [LimitedBuffer.Clone, hov]

/-- Witness for the amended C10 theorem. -/
theorem clone_writeMany_equiv_witness :
    ((NewLimitedBuffer 2).Write [5]).1.written = ((NewLimitedBuffer 2).Write [5]).1.buffer.length ∧
    ((writeMany ((NewLimitedBuffer 2).Write [5]).1.Clone [[6], [7]]).Len =
        (writeMany ((NewLimitedBuffer 2).Write [5]).1 [[6], [7]]).Len ∧
      (((NewLimitedBuffer 2).Write [5]).1.overflow =
          decide (((NewLimitedBuffer 2).Write [5]).1.maxSize ≤ ((NewLimitedBuffer 2).Write [5]).1.buffer.length ∧
            0 < ((NewLimitedBuffer 2).Write [5]).1.maxSize) →
        (writeMany ((NewLimitedBuffer 2).Write [5]).1.Clone [[6], [7]]).IsOverflow =
          (writeMany ((NewLimitedBuffer 2).Write [5]).1 [[6], [7]]).IsOverflow)) :=
  ⟨by decide, clone_writeMany_equiv (((NewLimitedBuffer 2).Write [5]).1) [[6], [7]] (by decide)⟩

/-- C10 counterexample: a capacity-0 buffer that has seen one write has
is_overflow true, while its Clone (which recomputes overflow from content
against capacity) has is_overflow false; the empty write sequence already
distinguishes them, refuting the claim as stated. -/
theorem clone_writeMany_counterexample :
    ¬ ((writeMany (((NewLimitedBuffer 0).Write [0]).1.Clone) []).IsOverflow =
        (writeMany (((NewLimitedBuffer 0).Write [0]).1) []).IsOverflow) := by
  decide

/-! ## Middleware chain order (C8) -/

/-- C8: when the three configured middlewares all resolve to plugins with
non-nil middleware factories, the built handler is the first middleware
outermost and the last innermost around the engine handler. -/
theorem applyMiddlewares_order {H : Type} (plugins : List (Plugin H))
    (loc : LocationConfig) (n1 n2 n3 : String) (f1 f2 f3 : H → H)
    (handler : H) (blocking : List String → H)
    (hmw : loc.middlewares = [n1, n2, n3])
    (h1 : findPluginMiddleware plugins n1 = some f1)
    (h2 : findPluginMiddleware plugins n2 = some f2)
    (h3 : findPluginMiddleware plugins n3 = some f3) :
    applyMiddlewares plugins loc handler blocking = f1 (f2 (f3 handler)) := by
  simp [applyMiddlewares, applyMiddlewaresLoop, hmw, h1, h2, h3]

/-- Witness for C8 with trace handlers: the traversal order is m1, m2, m3,
then the engine. -/
theorem applyMiddlewares_order_witness :
    applyMiddlewares (H := List String)
      [{ name := "m1", middlewareFunc := some (fun l => "m1" :: l) },
       { name := "m2", middlewareFunc := some (fun l => "m2" :: l) },
       { name := "m3", middlewareFunc := some (fun l => "m3" :: l) }]
      { path := "/api", targetURL := "http://backend", replacePath := false,
        additionalHeaders := [], excludedHeaders := [],
        middlewares := ["m1", "m2", "m3"], transport := none,
        maxResponseBodySize := 0 }
      ["engine"] (fun _ => ["blocked"]) = ["m1", "m2", "m3", "engine"] :=
  (applyMiddlewares_order
      [{ name := "m1", middlewareFunc := some (fun l => "m1" :: l) },
       { name := "m2", middlewareFunc := some (fun l => "m2" :: l) },
       { name := "m3", middlewareFunc := some (fun l => "m3" :: l) }]
      { path := "/api", targetURL := "http://backend", replacePath := false,
        additionalHeaders := [], excludedHeaders := [],
        middlewares := ["m1", "m2", "m3"], transport := none,
        maxResponseBodySize := 0 }
      "m1" "m2" "m3" (fun l => "m1" :: l) (fun l => "m2" :: l) (fun l => "m3" :: l)
      ["engine"] (fun _ => ["blocked"]) rfl rfl rfl rfl).trans rfl

/-! ## Global response body limit default (C3) -/

/-- Helper: the validated configuration carries the input response limits,
except that a zero global limit has been replaced by the 100MB default. -/
theorem validate_ok_responseLimits (c c2 : ProxyConfig)
    (hok : validateAndSetDefaults c = .ok c2) :
    c2.responseLimits =
      (if c.responseLimits.MaxResponseBodySize = 0 then { MaxResponseBodySize := 104857600 }
       else c.responseLimits) := by
  unfold validateAndSetDefaults at hok
  repeat' (first | (split at hok) | simp_all)
  all_goals (subst hok; rfl)

/-- C3 (amended): a loaded configuration whose global
response_limits.max_response_body_size is 0 is NOT unlimited: validation
replaces the 0 with the 100MB default (104857600), so a route whose own
max_response_body_size is 0 has effective limit 104857600 and the response
limit interceptor IS applied to it. -/
theorem zero_global_limit_defaults_to_100MB (c c2 : ProxyConfig) (lc : LocationConfig)
    (h0 : c.responseLimits.MaxResponseBodySize = 0)
    (hok : validateAndSetDefaults c = .ok c2)
    (hlc : lc.maxResponseBodySize = 0) :
    c2.responseLimits.MaxResponseBodySize = 104857600 ∧
    lc.GetEffectiveMaxResponseBodySize c2.responseLimits.MaxResponseBodySize = 104857600 ∧
    limitInterceptorApplied c2 lc = true := by
  have hg := validate_ok_responseLimits c c2 hok
  rw [if_pos h0] at hg
  have hg2 : c2.responseLimits.MaxResponseBodySize = 104857600 := by rw [hg]
  refine ⟨hg2, ?_, ?_⟩
  · simp [LocationConfig.GetEffectiveMaxResponseBodySize, hlc, hg2]
  · simp [limitInterceptorApplied, LocationConfig.GetEffectiveMaxResponseBodySize, hlc, hg2]

/-- Witness for the amended C3 theorem on a concrete configuration. -/
theorem zero_global_limit_defaults_to_100MB_witness :
    ({ responseLimits := { MaxResponseBodySize := 0 }, requestTimeout := 0,
       locations := [], plugins := { Directory := "", PublicKeyPath := "", PublicKeyHash := "" },
       metrics := { Enabled := false, Path := "" },
       transport := { IdleConnTimeout := 0, MaxIdleConns := 0, MaxIdleConnsPerHost := 0,
                      MaxConnsPerHost := 0, TLSHandshakeTimeout := 0,
                      ResponseHeaderTimeout := 0, ExpectContinueTimeout := 0,
                      DisableCompression := false, ForceHTTP2 := false,
                      DialTimeout := 0, KeepAlive := 0,
                      CertFile := [], KeyFile := [], CaFile := [] } } :
        ProxyConfig).responseLimits.MaxResponseBodySize = 0 ∧
    ({ responseLimits := { MaxResponseBodySize := 104857600 }, requestTimeout := 30000000000,
       locations := [], plugins := { Directory := "", PublicKeyPath := "", PublicKeyHash := "" },
       metrics := { Enabled := false, Path := "" },
       transport := { IdleConnTimeout := 0, MaxIdleConns := 0, MaxIdleConnsPerHost := 0,
                      MaxConnsPerHost := 0, TLSHandshakeTimeout := 0,
                      ResponseHeaderTimeout := 0, ExpectContinueTimeout := 0,
                      DisableCompression := false, ForceHTTP2 := false,
                      DialTimeout := 0, KeepAlive := 0,
                      CertFile := [], KeyFile := [], CaFile := [] } } :
        ProxyConfig).responseLimits.MaxResponseBodySize = 104857600 ∧
    ({ path := "^/api$", targetURL := "http://backend", replacePath := false,
       additionalHeaders := [], excludedHeaders := [], middlewares := [],
       transport := none, maxResponseBodySize := 0 } :
        LocationConfig).GetEffectiveMaxResponseBodySize 104857600 = 104857600 := by
  refine ⟨rfl, ?_, ?_⟩
  · exact (zero_global_limit_defaults_to_100MB
      { responseLimits := { MaxResponseBodySize := 0 }, requestTimeout := 0,
        locations := [], plugins := { Directory := "", PublicKeyPath := "", PublicKeyHash := "" },
        metrics := { Enabled := false, Path := "" },
        transport := { IdleConnTimeout := 0, MaxIdleConns := 0, MaxIdleConnsPerHost := 0,
                       MaxConnsPerHost := 0, TLSHandshakeTimeout := 0,
                       ResponseHeaderTimeout := 0, ExpectContinueTimeout := 0,
                       DisableCompression := false, ForceHTTP2 := false,
                       DialTimeout := 0, KeepAlive := 0,
                       CertFile := [], KeyFile := [], CaFile := [] } }
      { responseLimits := { MaxResponseBodySize := 104857600 }, requestTimeout := 30000000000,
        locations := [], plugins := { Directory := "", PublicKeyPath := "", PublicKeyHash := "" },
        metrics := { Enabled := false, Path := "" },
        transport := { IdleConnTimeout := 0, MaxIdleConns := 0, MaxIdleConnsPerHost := 0,
                       MaxConnsPerHost := 0, TLSHandshakeTimeout := 0,
                       ResponseHeaderTimeout := 0, ExpectContinueTimeout := 0,
                       DisableCompression := false, ForceHTTP2 := false,
                       DialTimeout := 0, KeepAlive := 0,
                       CertFile := [], KeyFile := [], CaFile := [] } }
      { path := "^/api$", targetURL := "http://backend", replacePath := false,
        additionalHeaders := [], excludedHeaders := [], middlewares := [],
        transport := none, maxResponseBodySize := 0 }
      rfl rfl rfl).1
  · exact rfl

/-- C3 counterexample: a loaded configuration with global limit 0 and a
route with route limit 0 gets, after validation, a positive effective limit,
so the limit interceptor IS applied, contradicting the claim that such a
route is served unlimited. -/
theorem zero_global_limit_counterexample :
    (validateAndSetDefaults
        { responseLimits := { MaxResponseBodySize := 0 }, requestTimeout := 0,
          locations := [{ path := "^/api$", targetURL := "http://backend", replacePath := false,
                          additionalHeaders := [], excludedHeaders := [], middlewares := [],
                          transport := none, maxResponseBodySize := 0 }],
          plugins := { Directory := "", PublicKeyPath := "", PublicKeyHash := "" },
          metrics := { Enabled := false, Path := "" },
          transport := { IdleConnTimeout := 0, MaxIdleConns := 0, MaxIdleConnsPerHost := 0,
                         MaxConnsPerHost := 0, TLSHandshakeTimeout := 0,
                         ResponseHeaderTimeout := 0, ExpectContinueTimeout := 0,
                         DisableCompression := false, ForceHTTP2 := false,
                         DialTimeout := 0, KeepAlive := 0,
                         CertFile := [], KeyFile := [], CaFile := [] } }).map
      (fun c2 => limitInterceptorApplied c2
        { path := "^/api$", targetURL := "http://backend", replacePath := false,
          additionalHeaders := [], excludedHeaders := [], middlewares := [],
          transport := none, maxResponseBodySize := 0 }) = .ok true := by
  rfl


theorem set_apply (h : Headers) (k v q : String) :
    (h.set k v) q = if q = canonicalMIMEHeaderKey k then [v] else h q := rfl

theorem del_apply (h : Headers) (k q : String) :
    (h.del k) q = if q = canonicalMIMEHeaderKey k then [] else h q := rfl

theorem foldl_del_apply (names : List String) :
    ∀ (h : Headers) (q : String),
      (names.foldl (fun h k => h.del k) h) q =
        if excludedDeletes names q then [] else h q := by
  induction names with
  | nil => intro h q; simp [excludedDeletes]
  | cons k rest ih =>
      intro h q
      simp only [List.foldl_cons, ih, excludedDeletes, List.any_cons]
      by_cases hq : q = canonicalMIMEHeaderKey k <;>
        simp [Headers.del, hq, excludedDeletes]

theorem foldl_pick_init (q : String) (entries : List (String × String)) :
    ∀ acc : Option String,
      entries.foldl (fun acc kv => if q = canonicalMIMEHeaderKey kv.1 then some kv.2 else acc) acc =
        match entries.foldl (fun acc kv => if q = canonicalMIMEHeaderKey kv.1 then some kv.2 else acc) none with
        | some v => some v
        | none => acc := by
  induction entries with
  | nil => intro acc; rfl
  | cons kv rest ih =>
      intro acc
      simp only [List.foldl_cons]
      by_cases hq : q = canonicalMIMEHeaderKey kv.1
      · rw [if_pos hq, if_pos hq, ih (some kv.2)]
        cases rest.foldl (fun acc kv => if q = canonicalMIMEHeaderKey kv.1 then some kv.2 else acc) none <;> rfl
      · rw [if_neg hq, if_neg hq, ih acc, ih none]

theorem foldl_set_apply (entries : List (String × String)) :
    ∀ (h : Headers) (q : String),
      (entries.foldl (fun h kv => h.set kv.1 kv.2) h) q =
        match lastAdditionalValue entries q with
        | some v => [v]
        | none => h q := by
  induction entries with
  | nil => intro h q; rfl
  | cons kv rest ih =>
      intro h q
      simp only [List.foldl_cons, ih, lastAdditionalValue]
      by_cases hq : q = canonicalMIMEHeaderKey kv.1
      · rw [if_pos hq, foldl_pick_init q rest (some kv.2)]
        cases rest.foldl (fun acc kv => if q = canonicalMIMEHeaderKey kv.1 then some kv.2 else acc) none <;>
          simp [Headers.set, hq, lastAdditionalValue]
      · rw [if_neg hq, foldl_pick_init q rest none]
        cases rest.foldl (fun acc kv => if q = canonicalMIMEHeaderKey kv.1 then some kv.2 else acc) none <;>
          simp [Headers.set, hq, lastAdditionalValue]


theorem canonical_xff : canonicalMIMEHeaderKey "X-Forwarded-For" = "X-Forwarded-For" := by decide

theorem canonical_xfp : canonicalMIMEHeaderKey "X-Forwarded-Proto" = "X-Forwarded-Proto" := by decide

theorem canonical_xfh : canonicalMIMEHeaderKey "X-Forwarded-Host" = "X-Forwarded-Host" := by decide

theorem delExcluded_urlScheme (loc : LocationConfig) (r : Request) :
    (delExcludedHeaders loc r).urlScheme = r.urlScheme := rfl

theorem delExcluded_host (loc : LocationConfig) (r : Request) :
    (delExcludedHeaders loc r).host = r.host := rfl

theorem delExcluded_remoteAddr (loc : LocationConfig) (r : Request) :
    (delExcludedHeaders loc r).remoteAddr = r.remoteAddr := rfl

theorem setAdditional_urlScheme (loc : LocationConfig) (r : Request) :
    (setAdditionalHeaders loc r).urlScheme = r.urlScheme := rfl

theorem setAdditional_host (loc : LocationConfig) (r : Request) :
    (setAdditionalHeaders loc r).host = r.host := rfl

theorem setAdditional_remoteAddr (loc : LocationConfig) (r : Request) :
    (setAdditionalHeaders loc r).remoteAddr = r.remoteAddr := rfl

theorem delExcluded_header (loc : LocationConfig) (r : Request) (q : String) :
    (delExcludedHeaders loc r).header q =
      if excludedDeletes loc.excludedHeaders q then [] else r.header q :=
  foldl_del_apply loc.excludedHeaders r.header q

theorem base_header (loc : LocationConfig) (r : Request) (q : String) :
    (setAdditionalHeaders loc (delExcludedHeaders loc r)).header q = baseHeaderValue loc r q := by
  have h := foldl_set_apply loc.additionalHeaders (delExcludedHeaders loc r).header q
  rw [setAdditionalHeaders] at *
  simp only [h, baseHeaderValue, delExcluded_header]

theorem setHostOverride_header (loc : LocationConfig) (r : Request) :
    (setHostOverride loc r).header = r.header := by
  unfold setHostOverride
  cases lookupMap loc.additionalHeaders "Host" <;> rfl

theorem setHostOverride_host (loc : LocationConfig) (r : Request) :
    (setHostOverride loc r).host = hostAfterOverride loc r := by
  unfold setHostOverride hostAfterOverride
  cases lookupMap loc.additionalHeaders "Host" <;> rfl

theorem setHostOverride_scheme (loc : LocationConfig) (r : Request) :
    (setHostOverride loc r).urlScheme = r.urlScheme ∧
    (setHostOverride loc r).remoteAddr = r.remoteAddr := by
  unfold setHostOverride
  cases lookupMap loc.additionalHeaders "Host" <;> exact ⟨rfl, rfl⟩

theorem setXFF_header (loc : LocationConfig) (r : Request) (q : String) :
    (setXForwardedFor loc r).header q =
      if containsStr loc.excludedHeaders XForwardedFor = true then r.header q
      else if q = "X-Forwarded-For" then
        [match r.header XForwardedFor with
         | [] => r.remoteAddr
         | prior0 :: _ => prior0 ++ ", " ++ r.remoteAddr]
      else r.header q := by
  unfold setXForwardedFor
  simp only [XForwardedFor] at *
  by_cases hc : containsStr loc.excludedHeaders "X-Forwarded-For" = true
  · simp [hc]
  · simp only [hc, Bool.false_eq_true, if_false]
    cases hm : r.header "X-Forwarded-For" <;>
      simp [Headers.set, canonical_xff, hm]

theorem setXFF_fields (loc : LocationConfig) (r : Request) :
    (setXForwardedFor loc r).urlScheme = r.urlScheme ∧
    (setXForwardedFor loc r).host = r.host ∧
    (setXForwardedFor loc r).remoteAddr = r.remoteAddr := by
  unfold setXForwardedFor
  split
  · exact ⟨rfl, rfl, rfl⟩
  · cases r.header XForwardedFor <;> exact ⟨rfl, rfl, rfl⟩

theorem setXFP_header (loc : LocationConfig) (r : Request) (q : String) :
    (setXForwardedProto loc r).header q =
      if containsStr loc.excludedHeaders XForwardedProto = true then r.header q
      else if q = "X-Forwarded-Proto" then [r.urlScheme]
      else r.header q := by
  unfold setXForwardedProto
  simp only [XForwardedProto] at *
  by_cases hc : containsStr loc.excludedHeaders "X-Forwarded-Proto" = true
  · simp [hc]
  · simp [hc, Headers.set, canonical_xfp]

theorem setXFP_fields (loc : LocationConfig) (r : Request) :
    (setXForwardedProto loc r).urlScheme = r.urlScheme ∧
    (setXForwardedProto loc r).host = r.host ∧
    (setXForwardedProto loc r).remoteAddr = r.remoteAddr := by
  unfold setXForwardedProto
  split <;> exact ⟨rfl, rfl, rfl⟩

theorem setXFH_header (loc : LocationConfig) (r : Request) (q : String) :
    (setXForwardedHost loc r).header q =
      if containsStr loc.excludedHeaders XForwardedHost = true then r.header q
      else if q = "X-Forwarded-Host" then [r.host]
      else r.header q := by
  unfold setXForwardedHost
  simp only [XForwardedHost] at *
  by_cases hc : containsStr loc.excludedHeaders "X-Forwarded-Host" = true
  · simp [hc]
  · simp [hc, Headers.set, canonical_xfh]

theorem setXFH_fields (loc : LocationConfig) (r : Request) :
    (setXForwardedHost loc r).urlScheme = r.urlScheme ∧
    (setXForwardedHost loc r).host = r.host ∧
    (setXForwardedHost loc r).remoteAddr = r.remoteAddr := by
  unfold setXForwardedHost
  split <;> exact ⟨rfl, rfl, rfl⟩

theorem AddHeaders_header_apply (loc : LocationConfig) (r : Request) (q : String) :
    (AddHeaders loc r).header q =
      (let afterF : List String :=
         if containsStr loc.excludedHeaders XForwardedFor = true then baseHeaderValue loc r q
         else if q = "X-Forwarded-For" then [xffNewValue loc r]
         else baseHeaderValue loc r q
       let afterP : List String :=
         if containsStr loc.excludedHeaders XForwardedProto = true then afterF
         else if q = "X-Forwarded-Proto" then [r.urlScheme]
         else afterF
       if containsStr loc.excludedHeaders XForwardedHost = true then afterP
       else if q = "X-Forwarded-Host" then [hostAfterOverride loc r]
       else afterP) := by
  unfold AddHeaders
  rw [setXFH_header]
  rw [(setXFP_fields loc (setXForwardedFor loc (setHostOverride loc
        (setAdditionalHeaders loc (delExcludedHeaders loc r))))).2.1]
  rw [(setXFF_fields loc (setHostOverride loc
        (setAdditionalHeaders loc (delExcludedHeaders loc r)))).2.1]
  rw [setHostOverride_host]
  rw [setXFP_header]
  rw [(setXFF_fields loc (setHostOverride loc
        (setAdditionalHeaders loc (delExcludedHeaders loc r)))).1]
  rw [(setHostOverride_scheme loc (setAdditionalHeaders loc (delExcludedHeaders loc r))).1]
  rw [setXFF_header]
  rw [(setHostOverride_scheme loc (setAdditionalHeaders loc (delExcludedHeaders loc r))).2]
  rw [setHostOverride_header]
  simp only [base_header, xffNewValue, XForwardedFor, hostAfterOverride,
    setAdditional_host, delExcluded_host, setAdditional_remoteAddr, delExcluded_remoteAddr,
    setAdditional_urlScheme, delExcluded_urlScheme]


theorem createDirector_urlScheme (tu : TargetURL) (loc : LocationConfig) (o r : Request) :
    (createDirector tu loc o r).urlScheme = tu.scheme := by
  unfold createDirector
  split <;> dsimp only <;> split <;> rfl

theorem createDirector_host (tu : TargetURL) (loc : LocationConfig) (o r : Request) :
    (createDirector tu loc o r).host = tu.host := by
  unfold createDirector
  split <;> dsimp only <;> split <;> rfl

theorem AddHeaders_urlScheme (loc : LocationConfig) (r : Request) :
    (AddHeaders loc r).urlScheme = r.urlScheme := by
  unfold AddHeaders
  rw [(setXFH_fields loc _).1, (setXFP_fields loc _).1, (setXFF_fields loc _).1,
      (setHostOverride_scheme loc _).1, setAdditional_urlScheme, delExcluded_urlScheme]

theorem AddHeaders_host (loc : LocationConfig) (r : Request) :
    (AddHeaders loc r).host = hostAfterOverride loc r := by
  unfold AddHeaders
  rw [(setXFH_fields loc _).2.1, (setXFP_fields loc _).2.1, (setXFF_fields loc _).2.1,
      setHostOverride_host]
  simp only [hostAfterOverride, setAdditional_host, delExcluded_host]

/-- C6 (amended): unless excluded, X-Forwarded-Proto is set to the outgoing
request URL scheme - already rewritten by the director to the target scheme,
not taken from the client TLS state - and X-Forwarded-Host to the outgoing
request Host - the target host or the Host override, not the client
original Host. -/
theorem forwarded_headers_from_outgoing (targetURL : TargetURL) (location : LocationConfig)
    (original : Request)
    (hp : containsStr location.excludedHeaders XForwardedProto = false)
    (hh : containsStr location.excludedHeaders XForwardedHost = false) :
    (outgoingRequest targetURL location original).header "X-Forwarded-Proto" = [targetURL.scheme] ∧
    (outgoingRequest targetURL location original).header "X-Forwarded-Host" =
      [match lookupMap location.additionalHeaders "Host" with
       | some v => v
       | none => targetURL.host] := by
  unfold outgoingRequest
  constructor
  · rw [AddHeaders_header_apply]
    simp only [hp, hh, Bool.false_eq_true, if_false]
    simp [createDirector_urlScheme]
  · rw [AddHeaders_header_apply]
    simp only [hp, hh, Bool.false_eq_true, if_false]
    simp only [hostAfterOverride, reduceIte]
    cases hlk : lookupMap location.additionalHeaders "Host" <;>
      simp [hlk, createDirector_host]


theorem contains_excludedDeletes (names : List String)
    (h : containsStr names "X-Forwarded-For" = true) :
    excludedDeletes names "X-Forwarded-For" = true := by
  induction names with
  | nil => simp [containsStr] at h
  | cons k rest ih =>
      unfold containsStr at h
      by_cases hk : k = "X-Forwarded-For"
      · subst hk
        simp [excludedDeletes, canonical_xff]
      · simp only [hk, if_false] at h
        have := ih h
        simp only [excludedDeletes, List.any_cons, Bool.or_eq_true] at this ⊢
        exact Or.inr this

theorem addHeaders_host_stable (loc : LocationConfig) (r : Request) :
    (AddHeaders loc (AddHeaders loc r)).host = (AddHeaders loc r).host := by
  rw [AddHeaders_host loc (AddHeaders loc r)]
  unfold hostAfterOverride
  cases hlk : lookupMap loc.additionalHeaders "Host"
  · simp
  · simp [AddHeaders_host, hostAfterOverride, hlk]

theorem hostAfterOverride_addHeaders (loc : LocationConfig) (r : Request) :
    hostAfterOverride loc (AddHeaders loc r) = hostAfterOverride loc r := by
  rw [← AddHeaders_host loc (AddHeaders loc r), addHeaders_host_stable, AddHeaders_host]


/-- C7 (amended): applying the header rewriting twice yields the same Host
and the same value for every header other than X-Forwarded-For as applying
it once, and entirely the same headers whenever X-Forwarded-For is listed in
the excluded headers. -/
theorem addHeaders_twice_equals_once (loc : LocationConfig) (r : Request) :
    (AddHeaders loc (AddHeaders loc r)).host = (AddHeaders loc r).host ∧
    (∀ q, q ≠ "X-Forwarded-For" →
      (AddHeaders loc (AddHeaders loc r)).header q = (AddHeaders loc r).header q) ∧
    (containsStr loc.excludedHeaders XForwardedFor = true →
      ∀ q, (AddHeaders loc (AddHeaders loc r)).header q = (AddHeaders loc r).header q) := by
  have hmain : ∀ q, q ≠ "X-Forwarded-For" →
      (AddHeaders loc (AddHeaders loc r)).header q = (AddHeaders loc r).header q := by
    intro q hq
    rw [AddHeaders_header_apply loc (AddHeaders loc r) q]
    have h2 := AddHeaders_header_apply loc r q
    by_cases hH : containsStr loc.excludedHeaders XForwardedHost = true <;>
    by_cases hP : containsStr loc.excludedHeaders XForwardedProto = true <;>
    by_cases hF : containsStr loc.excludedHeaders XForwardedFor = true <;>
    by_cases hqH : q = "X-Forwarded-Host" <;>
    by_cases hqP : q = "X-Forwarded-Proto" <;>
    cases hla : lastAdditionalValue loc.additionalHeaders q <;>
      simp_all [baseHeaderValue, AddHeaders_urlScheme, hostAfterOverride_addHeaders]
  refine ⟨addHeaders_host_stable loc r, hmain, ?_⟩
  intro hF q
  by_cases hq : q = "X-Forwarded-For"
  · subst hq
    have hex : excludedDeletes loc.excludedHeaders "X-Forwarded-For" = true :=
      contains_excludedDeletes loc.excludedHeaders hF
    rw [AddHeaders_header_apply loc (AddHeaders loc r) _, AddHeaders_header_apply loc r _]
    by_cases hH : containsStr loc.excludedHeaders XForwardedHost = true <;>
    by_cases hP : containsStr loc.excludedHeaders XForwardedProto = true <;>
    cases hla : lastAdditionalValue loc.additionalHeaders "X-Forwarded-For" <;>
      simp_all [baseHeaderValue, hex]
  · exact hmain q hq


/-- C6 counterexample: a TLS client request proxied to an http target gets
X-Forwarded-Proto http (the target scheme), not https from the TLS state,
refuting the claim as stated. -/
theorem forwarded_proto_counterexample :
    ({ urlScheme := "", urlHost := "", urlPath := "/api", rawQuery := "",
       host := "example.com", remoteAddr := "203.0.113.5:4455", tls := true,
       requestID := "", header := emptyHeaders } : Request).tls = true ∧
    containsStr ([] : List String) XForwardedProto = false ∧
    containsStr ([] : List String) XForwardedHost = false ∧
    (outgoingRequest { scheme := "http", host := "backend:8080", path := "" }
        { path := "/api", targetURL := "http://backend:8080", replacePath := true,
          additionalHeaders := [], excludedHeaders := [], middlewares := [],
          transport := none, maxResponseBodySize := 0 }
        { urlScheme := "", urlHost := "", urlPath := "/api", rawQuery := "",
          host := "example.com", remoteAddr := "203.0.113.5:4455", tls := true,
          requestID := "", header := emptyHeaders }).header "X-Forwarded-Proto" = ["http"] ∧
    ¬ (outgoingRequest { scheme := "http", host := "backend:8080", path := "" }
        { path := "/api", targetURL := "http://backend:8080", replacePath := true,
          additionalHeaders := [], excludedHeaders := [], middlewares := [],
          transport := none, maxResponseBodySize := 0 }
        { urlScheme := "", urlHost := "", urlPath := "/api", rawQuery := "",
          host := "example.com", remoteAddr := "203.0.113.5:4455", tls := true,
          requestID := "", header := emptyHeaders }).header "X-Forwarded-Proto" = ["https"] ∧
    (outgoingRequest { scheme := "http", host := "backend:8080", path := "" }
        { path := "/api", targetURL := "http://backend:8080", replacePath := true,
          additionalHeaders := [], excludedHeaders := [], middlewares := [],
          transport := none, maxResponseBodySize := 0 }
        { urlScheme := "", urlHost := "", urlPath := "/api", rawQuery := "",
          host := "example.com", remoteAddr := "203.0.113.5:4455", tls := true,
          requestID := "", header := emptyHeaders }).header "X-Forwarded-Host" = ["backend:8080"] := by
  decide

/-- C7 counterexample: without excluding X-Forwarded-For, the second
application appends the remote address again, so the rewriting is not
idempotent as claimed. -/
theorem addHeaders_not_idempotent_counterexample :
    ¬ ((AddHeaders
          { path := "/api", targetURL := "http://backend", replacePath := false,
            additionalHeaders := [], excludedHeaders := [], middlewares := [],
            transport := none, maxResponseBodySize := 0 }
          (AddHeaders
            { path := "/api", targetURL := "http://backend", replacePath := false,
              additionalHeaders := [], excludedHeaders := [], middlewares := [],
              transport := none, maxResponseBodySize := 0 }
            { urlScheme := "http", urlHost := "", urlPath := "/api", rawQuery := "",
              host := "example.com", remoteAddr := "1.2.3.4", tls := false,
              requestID := "", header := emptyHeaders })).header "X-Forwarded-For" =
        (AddHeaders
          { path := "/api", targetURL := "http://backend", replacePath := false,
            additionalHeaders := [], excludedHeaders := [], middlewares := [],
            transport := none, maxResponseBodySize := 0 }
          { urlScheme := "http", urlHost := "", urlPath := "/api", rawQuery := "",
            host := "example.com", remoteAddr := "1.2.3.4", tls := false,
            requestID := "", header := emptyHeaders }).header "X-Forwarded-For") := by
  decide


/-- Witness for the amended C6 theorem at concrete inputs. -/
theorem forwarded_headers_from_outgoing_witness :
    (outgoingRequest { scheme := "http", host := "backend:8080", path := "" }
        { path := "/api", targetURL := "http://backend:8080", replacePath := true,
          additionalHeaders := [], excludedHeaders := [], middlewares := [],
          transport := none, maxResponseBodySize := 0 }
        { urlScheme := "", urlHost := "", urlPath := "/api", rawQuery := "",
          host := "example.com", remoteAddr := "203.0.113.5:4455", tls := true,
          requestID := "", header := emptyHeaders }).header "X-Forwarded-Proto" = ["http"] ∧
    (outgoingRequest { scheme := "http", host := "backend:8080", path := "" }
        { path := "/api", targetURL := "http://backend:8080", replacePath := true,
          additionalHeaders := [], excludedHeaders := [], middlewares := [],
          transport := none, maxResponseBodySize := 0 }
        { urlScheme := "", urlHost := "", urlPath := "/api", rawQuery := "",
          host := "example.com", remoteAddr := "203.0.113.5:4455", tls := true,
          requestID := "", header := emptyHeaders }).header "X-Forwarded-Host" = ["backend:8080"] :=
  forwarded_headers_from_outgoing { scheme := "http", host := "backend:8080", path := "" }
    { path := "/api", targetURL := "http://backend:8080", replacePath := true,
      additionalHeaders := [], excludedHeaders := [], middlewares := [],
      transport := none, maxResponseBodySize := 0 }
    { urlScheme := "", urlHost := "", urlPath := "/api", rawQuery := "",
      host := "example.com", remoteAddr := "203.0.113.5:4455", tls := true,
      requestID := "", header := emptyHeaders } (by decide) (by decide)

/-- Witness for the amended C7 theorem at a concrete route and request. -/
theorem addHeaders_twice_equals_once_witness :
    (AddHeaders
        { path := "/api", targetURL := "http://backend", replacePath := false,
          additionalHeaders := [("X-Tenant", "acme")], excludedHeaders := ["Cookie"],
          middlewares := [], transport := none, maxResponseBodySize := 0 }
        (AddHeaders
          { path := "/api", targetURL := "http://backend", replacePath := false,
            additionalHeaders := [("X-Tenant", "acme")], excludedHeaders := ["Cookie"],
            middlewares := [], transport := none, maxResponseBodySize := 0 }
          { urlScheme := "http", urlHost := "", urlPath := "/api", rawQuery := "",
            host := "example.com", remoteAddr := "1.2.3.4", tls := false,
            requestID := "", header := emptyHeaders })).header "Accept" =
      (AddHeaders
        { path := "/api", targetURL := "http://backend", replacePath := false,
          additionalHeaders := [("X-Tenant", "acme")], excludedHeaders := ["Cookie"],
          middlewares := [], transport := none, maxResponseBodySize := 0 }
        { urlScheme := "http", urlHost := "", urlPath := "/api", rawQuery := "",
          host := "example.com", remoteAddr := "1.2.3.4", tls := false,
          requestID := "", header := emptyHeaders }).header "Accept" :=
  (addHeaders_twice_equals_once
      { path := "/api", targetURL := "http://backend", replacePath := false,
        additionalHeaders := [("X-Tenant", "acme")], excludedHeaders := ["Cookie"],
        middlewares := [], transport := none, maxResponseBodySize := 0 }
      { urlScheme := "http", urlHost := "", urlPath := "/api", rawQuery := "",
        host := "example.com", remoteAddr := "1.2.3.4", tls := false,
        requestID := "", header := emptyHeaders }).2.1 "Accept" (by decide)

/-! ## Interceptor behaviour: body bound (C1), rejection emission (C2),
buffered later writes (C4) -/

theorem ccl_fields (s : responseLimitInterceptor) :
    (s.checkContentLength).1.underlying = s.underlying ∧
    (s.checkContentLength).1.buffer = s.buffer ∧
    (s.checkContentLength).1.written = s.written ∧
    (s.checkContentLength).1.headerWritten = s.headerWritten ∧
    (s.checkContentLength).1.maxSize = s.maxSize ∧
    (s.checkContentLength).1.path = s.path ∧
    (s.checkContentLength).1.originalHeaders = s.originalHeaders ∧
    (s.checkContentLength).1.statusCode = s.statusCode ∧
    ((s.checkContentLength).2 = true → (s.checkContentLength).1.limitExceeded = true) ∧
    ((s.checkContentLength).2 = false → (s.checkContentLength).1.limitExceeded = s.limitExceeded) := by
  unfold responseLimitInterceptor.checkContentLength
  dsimp only
  split
  · split
    · split <;> simp_all
    · simp_all
  · simp_all

theorem flushBuffer_spec (s : responseLimitInterceptor) (hhw : s.headerWritten = false) :
    (s.flushBuffer).underlying.body = s.underlying.body ++ s.buffer ∧
    (s.flushBuffer).buffer = [] ∧
    (s.flushBuffer).underlying.statusEvents = s.underlying.statusEvents ++ [s.statusCode] ∧
    (s.flushBuffer).headerWritten = true ∧
    (s.flushBuffer).limitExceeded = s.limitExceeded ∧
    (s.flushBuffer).written = s.written ∧
    (s.flushBuffer).maxSize = s.maxSize ∧
    (s.flushBuffer).path = s.path := by
  unfold responseLimitInterceptor.flushBuffer
  rw [if_neg (by simp [hhw])]
  by_cases hb : 0 < s.buffer.length <;>
    simp_all [List.length_pos]

theorem send_spec (s : responseLimitInterceptor) (hhw : s.headerWritten = false) :
    (s.sendLimitExceededError).underlying.body =
      s.underlying.body ++ errorResponseBody s.maxSize s.path ∧
    (s.sendLimitExceededError).buffer = [] ∧
    (s.sendLimitExceededError).underlying.statusEvents =
      s.underlying.statusEvents ++ [413] ∧
    (s.sendLimitExceededError).headerWritten = true ∧
    (s.sendLimitExceededError).limitExceeded = s.limitExceeded ∧
    (s.sendLimitExceededError).written = s.written ∧
    (s.sendLimitExceededError).maxSize = s.maxSize ∧
    (s.sendLimitExceededError).path = s.path := by
  unfold responseLimitInterceptor.sendLimitExceededError
  rw [if_neg (by simp [hhw])]
  simp_all


theorem Write_rejected (s : responseLimitInterceptor) (b : List Char)
    (hle0 : s.limitExceeded = true) :
    s.Write b = (s, 0, some .responseTooLarge) := by
  unfold responseLimitInterceptor.Write
  simp [hle0]

theorem Write_hw_over (s : responseLimitInterceptor) (b : List Char)
    (hle0 : s.limitExceeded = false) (hhw0 : s.headerWritten = true)
    (hover : 0 < s.maxSize ∧ s.maxSize < s.written + b.length) :
    s.Write b = ({ s with limitExceeded := true }, 0, some .responseTooLarge) := by
  unfold responseLimitInterceptor.Write
  simp [hle0, hhw0, hover]

theorem Write_hw_accept (s : responseLimitInterceptor) (b : List Char)
    (hle0 : s.limitExceeded = false) (hhw0 : s.headerWritten = true)
    (hfit : ¬(0 < s.maxSize ∧ s.maxSize < s.written + b.length)) :
    s.Write b =
      ({ s with buffer := s.buffer ++ b, written := s.written + b.length }, b.length, none) := by
  unfold responseLimitInterceptor.Write
  simp [hle0, hhw0, hfit]

theorem ccl_cases (s : responseLimitInterceptor) :
    s.checkContentLength = (s, false) ∨
    s.checkContentLength = ({ s with limitExceeded := true }, true) := by
  unfold responseLimitInterceptor.checkContentLength
  dsimp only
  split
  · split
    · split
      · right; rfl
      · left; rfl
    · left; rfl
  · left; rfl

theorem Write_first_trigger (s : responseLimitInterceptor) (b : List Char)
    (hle0 : s.limitExceeded = false) (hhw0 : s.headerWritten = false)
    (htrig : (({ s with originalHeaders := mergeHeaders s.originalHeaders s.underlying.header
      } : responseLimitInterceptor).checkContentLength).2 = true) :
    s.Write b =
      ((({ s with originalHeaders := mergeHeaders s.originalHeaders s.underlying.header
        } : responseLimitInterceptor).checkContentLength).1.sendLimitExceededError,
       0, some .responseTooLarge) := by
  obtain ⟨u, mx, w, le, hw, p, buf, sc, oh⟩ := s
  dsimp only at hle0 hhw0 htrig ⊢
  subst hle0; subst hhw0
  unfold responseLimitInterceptor.Write
  rcases ccl_cases ⟨u, mx, w, false, false, p, buf, sc, mergeHeaders oh u.header⟩ with h | h
  · rw [h] at htrig; exact absurd htrig (by simp)
  · simp [h]

theorem Write_first_over (s : responseLimitInterceptor) (b : List Char)
    (hle0 : s.limitExceeded = false) (hhw0 : s.headerWritten = false)
    (htrig : (({ s with originalHeaders := mergeHeaders s.originalHeaders s.underlying.header
      } : responseLimitInterceptor).checkContentLength).2 = false)
    (hover : 0 < s.maxSize ∧ s.maxSize < s.written + b.length) :
    s.Write b =
      (({ (({ s with originalHeaders := mergeHeaders s.originalHeaders s.underlying.header
          } : responseLimitInterceptor).checkContentLength).1 with limitExceeded := true
        } : responseLimitInterceptor).sendLimitExceededError,
       0, some .responseTooLarge) := by
  obtain ⟨u, mx, w, le, hw, p, buf, sc, oh⟩ := s
  dsimp only at hle0 hhw0 htrig hover ⊢
  subst hle0; subst hhw0
  unfold responseLimitInterceptor.Write
  rcases ccl_cases ⟨u, mx, w, false, false, p, buf, sc, mergeHeaders oh u.header⟩ with h | h
  · simp [h, hover]
  · rw [h] at htrig; exact absurd htrig (by simp)

theorem Write_first_accept (s : responseLimitInterceptor) (b : List Char)
    (hle0 : s.limitExceeded = false) (hhw0 : s.headerWritten = false)
    (htrig : (({ s with originalHeaders := mergeHeaders s.originalHeaders s.underlying.header
      } : responseLimitInterceptor).checkContentLength).2 = false)
    (hfit : ¬(0 < s.maxSize ∧ s.maxSize < s.written + b.length)) :
    s.Write b =
      (({ (({ s with originalHeaders := mergeHeaders s.originalHeaders s.underlying.header
          } : responseLimitInterceptor).checkContentLength).1 with
          buffer := (({ s with originalHeaders := mergeHeaders s.originalHeaders s.underlying.header
            } : responseLimitInterceptor).checkContentLength).1.buffer ++ b,
          written := s.written + b.length
        } : responseLimitInterceptor).flushBuffer,
       b.length, none) := by
  obtain ⟨u, mx, w, le, hw, p, buf, sc, oh⟩ := s
  dsimp only at hle0 hhw0 htrig hfit ⊢
  subst hle0; subst hhw0
  unfold responseLimitInterceptor.Write
  rcases ccl_cases ⟨u, mx, w, false, false, p, buf, sc, mergeHeaders oh u.header⟩ with h | h
  · simp [h, hfit]
  · rw [h] at htrig; exact absurd htrig (by simp)

theorem inv_step (L : Int) (path : String) (hL : 0 < L)
    (s : responseLimitInterceptor) (op : ProxyOp) (hist : List Char)
    (hinv : interceptorInv L path hist s) :
    interceptorInv L path (hist ++ chunkOf op) (stepOp s op) := by
  obtain ⟨hmax, hpath, hcase⟩ := hinv
  cases op with
  | hset k v =>
      refine ⟨hmax, hpath, ?_⟩
      simpa [stepOp, chunkOf] using hcase
  | hdel k =>
      refine ⟨hmax, hpath, ?_⟩
      simpa [stepOp, chunkOf] using hcase
  | flush =>
      simp only [stepOp, chunkOf, List.append_nil]
      unfold responseLimitInterceptor.Flush
      split
      · rename_i hcond
        obtain ⟨hle0, hhw0, hbuf0⟩ := hcond
        have hf := flushBuffer_spec s hhw0
        rcases hcase with ⟨hpre, hwr, hwl, hle, hlehw, hhw⟩ | ⟨hbody, hbuf, hle, hhw, hev⟩
        · refine ⟨by rw [hf.2.2.2.2.2.2.1]; exact hmax, by rw [hf.2.2.2.2.2.2.2]; exact hpath, Or.inl ?_⟩
          refine ⟨?_, ?_, ?_, ?_, ?_, ?_⟩
          · rw [hf.1, hf.2.1]
            simpa using hpre
          · rw [hf.2.2.2.2.2.1, hf.1, hf.2.1]
            simpa using hwr
          · rw [hf.2.2.2.2.2.1]; exact hwl
          · intro h
            rw [hf.1, hf.2.1]
            simpa using hle (by rw [← hf.2.2.2.2.1]; exact h)
          · intro _; exact hf.2.2.2.1
          · intro h; rw [hf.2.2.2.1] at h; exact absurd h (by simp)
        · exact absurd hhw (by rw [hhw0]; simp)
      · exact ⟨hmax, hpath, hcase⟩
  | writeHeader code =>
      simp only [stepOp, chunkOf, List.append_nil]
      unfold responseLimitInterceptor.WriteHeader
      by_cases hhw0 : s.headerWritten = true
      · rw [if_pos hhw0]
        exact ⟨hmax, hpath, hcase⟩
      · rw [if_neg hhw0]
        rw [Bool.not_eq_true] at hhw0
        set s2 : responseLimitInterceptor :=
          { s with originalHeaders := mergeHeaders s.originalHeaders s.underlying.header,
                   statusCode := code } with hs2
        have hcc := ccl_fields s2
        rcases hcase with ⟨hpre, hwr, hwl, hle, hlehw, hhw⟩ | ⟨hbody, hbuf, hle, hhw, hev⟩
        · have hbe := hhw hhw0
          dsimp only
          split
          · rename_i htrig
            have hsend := send_spec (s2.checkContentLength).1
              (by rw [hcc.2.2.2.1]; exact hhw0)
            refine ⟨by rw [hsend.2.2.2.2.2.2.1, hcc.2.2.2.2.1]; exact hmax,
                    by rw [hsend.2.2.2.2.2.2.2, hcc.2.2.2.2.2.1]; exact hpath, Or.inr ?_⟩
            refine ⟨?_, hsend.2.1, ?_, hsend.2.2.2.1, ?_⟩
            · rw [hsend.1, hcc.1, hcc.2.2.2.2.1, hcc.2.2.2.2.2.1]
              rw [show s2.underlying.body = s.underlying.body from rfl]
              rw [hbe.1, hmax, hpath]
              simp
            · have := hcc.2.2.2.2.2.2.2.2.1 htrig
              rw [hsend.2.2.2.2.1]; exact this
            · rw [hsend.2.2.1, hcc.1]
              rw [show s2.underlying.statusEvents = s.underlying.statusEvents from rfl]
              rw [hbe.2]
              simp
          · rename_i htrig
            rw [Bool.not_eq_true] at htrig
            refine ⟨by rw [hcc.2.2.2.2.1]; exact hmax,
                    by rw [hcc.2.2.2.2.2.1]; exact hpath, Or.inl ?_⟩
            have hle2 := hcc.2.2.2.2.2.2.2.2.2 htrig
            refine ⟨?_, ?_, ?_, ?_, ?_, ?_⟩
            · rw [hcc.1, hcc.2.1]; exact hpre
            · rw [hcc.2.2.1, hcc.1, hcc.2.1]; exact hwr
            · rw [hcc.2.2.1]; exact hwl
            · intro h; rw [hcc.1, hcc.2.1]; exact hle (by rw [← hle2]; exact h)
            · intro h; rw [hcc.2.2.2.1]
              exact hlehw (by rw [← hle2]; exact h)
            · intro h; rw [hcc.2.2.2.1] at h; rw [hcc.1]
              exact hhw h
        · rw [hhw] at hhw0; exact absurd hhw0 (by simp)
  | write b =>
      simp only [stepOp, chunkOf]
      by_cases hle0 : s.limitExceeded = true
      · rw [Write_rejected s b hle0]
        dsimp only
        refine ⟨hmax, hpath, ?_⟩
        rcases hcase with ⟨hpre, hwr, hwl, hle, hlehw, hhw⟩ | herr
        · exact Or.inl ⟨hpre.trans (List.prefix_append hist b), hwr, hwl,
            fun h => by simp [hle0] at h, hlehw, hhw⟩
        · exact Or.inr herr
      · rw [Bool.not_eq_true] at hle0
        have hnoerr : s.underlying.body ++ s.buffer <+: hist ∧
            s.written = ((s.underlying.body.length + s.buffer.length : Nat) : Int) ∧
            s.written ≤ L ∧
            (s.limitExceeded = false → s.underlying.body ++ s.buffer = hist) ∧
            (s.limitExceeded = true → s.headerWritten = true) ∧
            (s.headerWritten = false →
              s.underlying.body = [] ∧ s.underlying.statusEvents = []) := by
          rcases hcase with h | herr
          · exact h
          · exact absurd hle0 (by simp [herr.2.2.1])
        obtain ⟨hpre, hwr, hwl, hle, hlehw, hhw⟩ := hnoerr
        by_cases hhw0 : s.headerWritten = true
        · by_cases hover : 0 < s.maxSize ∧ s.maxSize < s.written + (b.length : Int)
          · rw [Write_hw_over s b hle0 hhw0 hover]
            dsimp only
            refine ⟨hmax, hpath, Or.inl ?_⟩
            exact ⟨hpre.trans (List.prefix_append hist b), hwr, hwl,
              fun h => by simp at h, fun _ => hhw0,
              fun h => by simp [hhw0] at h⟩
          · rw [Write_hw_accept s b hle0 hhw0 hover]
            dsimp only
            refine ⟨hmax, hpath, Or.inl ?_⟩
            refine ⟨?_, ?_, ?_, ?_, fun _ => hhw0, fun h => by simp [hhw0] at h⟩
            · show s.underlying.body ++ (s.buffer ++ b) <+: hist ++ b
              rw [← List.append_assoc, hle hle0]
            · show s.written + (b.length : Int) = _
              rw [hwr]
              simp only [List.length_append]
              push_cast
              ring
            · show s.written + (b.length : Int) ≤ L
              rw [hmax] at hover
              omega
            · intro _
              show s.underlying.body ++ (s.buffer ++ b) = hist ++ b
              rw [← List.append_assoc, hle hle0]
        · rw [Bool.not_eq_true] at hhw0
          have hbe := hhw hhw0
          by_cases htrig : (({ s with
              originalHeaders := mergeHeaders s.originalHeaders s.underlying.header
            } : responseLimitInterceptor).checkContentLength).2 = true
          · rw [Write_first_trigger s b hle0 hhw0 htrig]
            rcases ccl_cases ({ s with
                originalHeaders := mergeHeaders s.originalHeaders s.underlying.header
              } : responseLimitInterceptor) with h | h
            · rw [h] at htrig; exact absurd htrig (by simp)
            · rw [h]
              dsimp only
              have hsend := send_spec ({ ({ s with
                  originalHeaders := mergeHeaders s.originalHeaders s.underlying.header
                } : responseLimitInterceptor) with limitExceeded := true
                } : responseLimitInterceptor) hhw0
              refine ⟨by rw [hsend.2.2.2.2.2.2.1]; exact hmax,
                      by rw [hsend.2.2.2.2.2.2.2]; exact hpath, Or.inr ?_⟩
              refine ⟨?_, hsend.2.1, by rw [hsend.2.2.2.2.1], hsend.2.2.2.1, ?_⟩
              · rw [hsend.1]
                show s.underlying.body ++ _ = _
                rw [hbe.1, hmax, hpath]
                simp
              · rw [hsend.2.2.1]
                show s.underlying.statusEvents ++ [413] = [413]
                rw [hbe.2]
                simp
          · rw [Bool.not_eq_true] at htrig
            by_cases hover : 0 < s.maxSize ∧ s.maxSize < s.written + (b.length : Int)
            · rw [Write_first_over s b hle0 hhw0 htrig hover]
              rcases ccl_cases ({ s with
                  originalHeaders := mergeHeaders s.originalHeaders s.underlying.header
                } : responseLimitInterceptor) with h | h
              · rw [h]
                dsimp only
                have hsend := send_spec ({ ({ s with
                    originalHeaders := mergeHeaders s.originalHeaders s.underlying.header
                  } : responseLimitInterceptor) with limitExceeded := true
                  } : responseLimitInterceptor) hhw0
                refine ⟨by rw [hsend.2.2.2.2.2.2.1]; exact hmax,
                        by rw [hsend.2.2.2.2.2.2.2]; exact hpath, Or.inr ?_⟩
                refine ⟨?_, hsend.2.1, by rw [hsend.2.2.2.2.1], hsend.2.2.2.1, ?_⟩
                · rw [hsend.1]
                  show s.underlying.body ++ _ = _
                  rw [hbe.1, hmax, hpath]
                  simp
                · rw [hsend.2.2.1]
                  show s.underlying.statusEvents ++ [413] = [413]
                  rw [hbe.2]
                  simp
              · rw [h] at htrig; exact absurd htrig (by simp)
            · rw [Write_first_accept s b hle0 hhw0 htrig hover]
              rcases ccl_cases ({ s with
                  originalHeaders := mergeHeaders s.originalHeaders s.underlying.header
                } : responseLimitInterceptor) with h | h
              · rw [h]
                dsimp only
                have hf := flushBuffer_spec ({ ({ s with
                    originalHeaders := mergeHeaders s.originalHeaders s.underlying.header
                  } : responseLimitInterceptor) with
                    buffer := s.buffer ++ b, written := s.written + (b.length : Int)
                  } : responseLimitInterceptor) hhw0
                refine ⟨by rw [hf.2.2.2.2.2.2.1]; exact hmax,
                        by rw [hf.2.2.2.2.2.2.2]; exact hpath, Or.inl ?_⟩
                refine ⟨?_, ?_, ?_, ?_, fun _ => hf.2.2.2.1,
                        fun hx => by simp [hf.2.2.2.1] at hx⟩
                · rw [hf.1, hf.2.1]
                  show s.underlying.body ++ (s.buffer ++ b) ++ [] <+: hist ++ b
                  rw [List.append_nil, ← List.append_assoc, hle hle0]
                · rw [hf.2.2.2.2.2.1, hf.1, hf.2.1]
                  show s.written + (b.length : Int) = _
                  rw [hwr]
                  simp only [List.length_append, List.length_nil]
                  push_cast
                  ring
                · rw [hf.2.2.2.2.2.1]
                  show s.written + (b.length : Int) ≤ L
                  rw [hmax] at hover
                  omega
                · intro _
                  rw [hf.1, hf.2.1]
                  show s.underlying.body ++ (s.buffer ++ b) ++ [] = hist ++ b
                  rw [List.append_nil, ← List.append_assoc, hle hle0]
              · rw [h] at htrig; exact absurd htrig (by simp)



theorem upstreamBytes_cons (op : ProxyOp) (ops : List ProxyOp) :
    upstreamBytes (op :: ops) = chunkOf op ++ upstreamBytes ops := by
  cases op <;> simp [upstreamBytes, chunkOf]

theorem inv_init (L : Int) (path : String) (hL : 0 < L) :
    interceptorInv L path [] (initInterceptor L path) := by
  refine ⟨rfl, rfl, Or.inl ?_⟩
  refine ⟨by simp [initInterceptor, newResponseLimitInterceptor], ?_, ?_, ?_, ?_, ?_⟩ <;>
    simp [initInterceptor, newResponseLimitInterceptor]
  omega

theorem inv_run (L : Int) (path : String) (hL : 0 < L) (ops : List ProxyOp) :
    ∀ (s : responseLimitInterceptor) (hist : List Char),
      interceptorInv L path hist s →
      interceptorInv L path (hist ++ upstreamBytes ops) (runOps s ops) := by
  induction ops with
  | nil => intro s hist h; simpa [runOps, upstreamBytes] using h
  | cons op rest ih =>
      intro s hist h
      have hstep := inv_step L path hL s op hist h
      have := ih (stepOp s op) (hist ++ chunkOf op) hstep
      rw [upstreamBytes_cons, ← List.append_assoc]
      simpa [runOps] using this

/-- C1: for every op sequence played against an interceptor with positive
limit L, the downstream body is either a prefix of the upstream bytes of
length at most L, or exactly the 413 JSON error body - never more than L
upstream bytes and never a mixture of upstream body and error body. -/
theorem interceptor_body_bounded (L : Int) (path : String) (ops : List ProxyOp)
    (hL : 0 < L) :
    ((runOps (initInterceptor L path) ops).underlying.body <+: upstreamBytes ops ∧
      ((runOps (initInterceptor L path) ops).underlying.body.length : Int) ≤ L) ∨
    (runOps (initInterceptor L path) ops).underlying.body = errorResponseBody L path := by
  have hinv := inv_run L path hL ops (initInterceptor L path) [] (inv_init L path hL)
  rw [List.nil_append] at hinv
  rcases hinv.2.2 with ⟨hpre, hwr, hwl, _, _, _⟩ | herr
  · left
    constructor
    · exact (List.prefix_append _ _).trans hpre
    · rw [hwr] at hwl
      push_cast at hwl
      omega
  · right
    exact herr.1


theorem canonical_ct : canonicalMIMEHeaderKey "Content-Type" = "Content-Type" := by decide

theorem canonical_xcto : canonicalMIMEHeaderKey "X-Content-Type-Options" = "X-Content-Type-Options" := by decide

theorem canonical_cc : canonicalMIMEHeaderKey "Cache-Control" = "Cache-Control" := by decide

theorem canonical_cl : canonicalMIMEHeaderKey "Content-Length" = "Content-Length" := by decide

theorem send_header (s : responseLimitInterceptor) (hhw : s.headerWritten = false) (q : String) :
    (s.sendLimitExceededError).underlying.header q =
      if q = "Content-Length" then
        [intToString ((errorResponseBody s.maxSize s.path).length : Int)]
      else if q = "Cache-Control" then ["no-cache, no-store, must-revalidate"]
      else if q = "X-Content-Type-Options" then ["nosniff"]
      else if q = "Content-Type" then ["application/json; charset=utf-8"]
      else [] := by
  unfold responseLimitInterceptor.sendLimitExceededError
  rw [if_neg (by simp [hhw])]
  simp only [Headers.set, canonical_ct, canonical_xcto, canonical_cc, canonical_cl]

theorem ccl_2_congr (s t : responseLimitInterceptor)
    (hOH : s.originalHeaders = t.originalHeaders) (hmx : s.maxSize = t.maxSize) :
    (s.checkContentLength).2 = (t.checkContentLength).2 := by
  unfold responseLimitInterceptor.checkContentLength
  dsimp only
  rw [hOH, hmx]
  repeat' (first | rfl | split)

theorem WriteHeader_trigger (s : responseLimitInterceptor) (code : Int)
    (hhw0 : s.headerWritten = false)
    (htrig : (({ s with originalHeaders := mergeHeaders s.originalHeaders s.underlying.header
      } : responseLimitInterceptor).checkContentLength).2 = true) :
    s.WriteHeader code =
      ({ s with
         originalHeaders := mergeHeaders s.originalHeaders s.underlying.header,
         statusCode := code,
         limitExceeded := true } : responseLimitInterceptor).sendLimitExceededError := by
  obtain ⟨u, mx, w, le, hw, p, buf, sc, oh⟩ := s
  dsimp only at hhw0 htrig ⊢
  subst hhw0
  unfold responseLimitInterceptor.WriteHeader
  have htrig2 : ((⟨u, mx, w, le, false, p, buf, code,
      mergeHeaders oh u.header⟩ : responseLimitInterceptor).checkContentLength).2 = true :=
    (ccl_2_congr
      ⟨u, mx, w, le, false, p, buf, code, mergeHeaders oh u.header⟩
      ⟨u, mx, w, le, false, p, buf, sc, mergeHeaders oh u.header⟩ rfl rfl).trans htrig
  rcases ccl_cases ⟨u, mx, w, le, false, p, buf, code, mergeHeaders oh u.header⟩ with h | h
  · rw [h] at htrig2; exact absurd htrig2 (by simp)
  · simp [h]

theorem stepOp_frozen (s : responseLimitInterceptor) (op : ProxyOp)
    (hle : s.limitExceeded = true) (hhw : s.headerWritten = true) :
    (stepOp s op).underlying.statusEvents = s.underlying.statusEvents ∧
    (stepOp s op).underlying.body = s.underlying.body ∧
    (stepOp s op).limitExceeded = true ∧
    (stepOp s op).headerWritten = true := by
  cases op with
  | hset k v => exact ⟨rfl, rfl, hle, hhw⟩
  | hdel k => exact ⟨rfl, rfl, hle, hhw⟩
  | writeHeader code =>
      simp only [stepOp]
      unfold responseLimitInterceptor.WriteHeader
      rw [if_pos hhw]
      exact ⟨rfl, rfl, hle, hhw⟩
  | write b =>
      simp only [stepOp]
      rw [Write_rejected s b hle]
      exact ⟨rfl, rfl, hle, hhw⟩
  | flush =>
      simp only [stepOp]
      unfold responseLimitInterceptor.Flush
      rw [if_neg (by simp [hle])]
      exact ⟨rfl, rfl, hle, hhw⟩

theorem rejected_frozen (ops : List ProxyOp) :
    ∀ s : responseLimitInterceptor, s.limitExceeded = true → s.headerWritten = true →
    (runOps s ops).underlying.statusEvents = s.underlying.statusEvents ∧
    (runOps s ops).underlying.body = s.underlying.body := by
  induction ops with
  | nil => intro s _ _; exact ⟨rfl, rfl⟩
  | cons op rest ih =>
      intro s hle hhw
      have hstep := stepOp_frozen s op hle hhw
      have hrec := ih (stepOp s op) hstep.2.2.1 hstep.2.2.2
      simp only [runOps, List.foldl_cons] at *
      exact ⟨hrec.1.trans hstep.1, hrec.2.trans hstep.2.1⟩


theorem send_run (t : responseLimitInterceptor) (ops2 : List ProxyOp)
    (hhw : t.headerWritten = false) (hle : t.limitExceeded = true)
    (hbody : t.underlying.body = []) (hse : t.underlying.statusEvents = []) :
    (runOps (t.sendLimitExceededError) ops2).underlying.statusEvents = [413] ∧
    (runOps (t.sendLimitExceededError) ops2).underlying.body =
      errorResponseBody t.maxSize t.path := by
  obtain ⟨hb, hbuf, hs, hw2, hl2, hwr, hmx, hp⟩ := send_spec t hhw
  have hfz := rejected_frozen ops2 t.sendLimitExceededError (hl2.trans hle) hw2
  constructor
  · rw [hfz.1, hs, hse]; rfl
  · rw [hfz.2, hb, hbody]; rfl

/-- C2: when the interceptor rejects before headers are flushed (over-limit
advertised Content-Length at WriteHeader or first Write, or a write pushing
the cumulative size over the limit), the previously set response headers are
all cleared and replaced by exactly Content-Type: application/json;
charset=utf-8, X-Content-Type-Options: nosniff, Cache-Control: no-cache,
no-store, must-revalidate and a Content-Length equal to the error body byte
length, and the downstream sees status 413 exactly once with exactly the
JSON error body carrying the limit and the request path, however the proxy
continues afterwards. -/
theorem reject_emission (s : responseLimitInterceptor) (op : ProxyOp) (ops2 : List ProxyOp)
    (hle : s.limitExceeded = false) (hhw : s.headerWritten = false)
    (hbody : s.underlying.body = []) (hse : s.underlying.statusEvents = [])
    (htrig : wouldRejectNow s op = true) :
    (∀ q : String, (stepOp s op).underlying.header q =
      (if q = "Content-Length" then
        [intToString ((errorResponseBody s.maxSize s.path).length : Int)]
      else if q = "Cache-Control" then ["no-cache, no-store, must-revalidate"]
      else if q = "X-Content-Type-Options" then ["nosniff"]
      else if q = "Content-Type" then ["application/json; charset=utf-8"]
      else [])) ∧
    (runOps (stepOp s op) ops2).underlying.statusEvents = [413] ∧
    (runOps (stepOp s op) ops2).underlying.body = errorResponseBody s.maxSize s.path := by
  cases op with
  | hset k v => simp [wouldRejectNow] at htrig
  | hdel k => simp [wouldRejectNow] at htrig
  | flush => simp [wouldRejectNow] at htrig
  | writeHeader code =>
      have htrig2 : (({ s with
          originalHeaders := mergeHeaders s.originalHeaders s.underlying.header
        } : responseLimitInterceptor).checkContentLength).2 = true := by
        simpa [wouldRejectNow] using htrig
      have hstep : stepOp s (.writeHeader code) =
          ({ s with
             originalHeaders := mergeHeaders s.originalHeaders s.underlying.header,
             statusCode := code,
             limitExceeded := true } : responseLimitInterceptor).sendLimitExceededError := by
        simpa [stepOp] using WriteHeader_trigger s code hhw htrig2
      rw [hstep]
      refine ⟨fun q => ?_, ?_, ?_⟩
      · exact send_header _ (by exact hhw) q
      · exact (send_run _ ops2 (by exact hhw) rfl (by exact hbody) (by exact hse)).1
      · exact (send_run _ ops2 (by exact hhw) rfl (by exact hbody) (by exact hse)).2
  | write b =>
      rcases ccl_cases ({ s with
          originalHeaders := mergeHeaders s.originalHeaders s.underlying.header
        } : responseLimitInterceptor) with h | h
      · -- Content-Length check passes: the trigger must be the size overflow.
        have htrig2 : (({ s with
            originalHeaders := mergeHeaders s.originalHeaders s.underlying.header
          } : responseLimitInterceptor).checkContentLength).2 = false := by rw [h]
        have hover : 0 < s.maxSize ∧ s.maxSize < s.written + b.length := by
          have := htrig
          simp only [wouldRejectNow, htrig2, Bool.false_or, decide_eq_true_eq] at this
          exact this
        have hstep : stepOp s (.write b) =
            ({ ({ s with
                originalHeaders := mergeHeaders s.originalHeaders s.underlying.header
              } : responseLimitInterceptor) with limitExceeded := true
              } : responseLimitInterceptor).sendLimitExceededError := by
          have := Write_first_over s b hle hhw htrig2 hover
          simp only [stepOp, this, h]
        rw [hstep]
        refine ⟨fun q => ?_, ?_, ?_⟩
        · exact send_header _ (by exact hhw) q
        · exact (send_run _ ops2 (by exact hhw) rfl (by exact hbody) (by exact hse)).1
        · exact (send_run _ ops2 (by exact hhw) rfl (by exact hbody) (by exact hse)).2
      · -- Content-Length check triggers on the first write.
        have htrig2 : (({ s with
            originalHeaders := mergeHeaders s.originalHeaders s.underlying.header
          } : responseLimitInterceptor).checkContentLength).2 = true := by rw [h]
        have hstep : stepOp s (.write b) =
            ({ ({ s with
                originalHeaders := mergeHeaders s.originalHeaders s.underlying.header
              } : responseLimitInterceptor) with limitExceeded := true
              } : responseLimitInterceptor).sendLimitExceededError := by
          have := Write_first_trigger s b hle hhw htrig2
          simp only [stepOp, this, h]
        rw [hstep]
        refine ⟨fun q => ?_, ?_, ?_⟩
        · exact send_header _ (by exact hhw) q
        · exact (send_run _ ops2 (by exact hhw) rfl (by exact hbody) (by exact hse)).1
        · exact (send_run _ ops2 (by exact hhw) rfl (by exact hbody) (by exact hse)).2

theorem reject_emission_witness :
    (runOps (stepOp (stepOp (initInterceptor 3 "/p") (.hset "Content-Length" "10"))
        (.writeHeader 200)) [.write ['a']]).underlying.statusEvents = [413] :=
  (reject_emission (stepOp (initInterceptor 3 "/p") (.hset "Content-Length" "10"))
    (.writeHeader 200) [.write ['a']] rfl rfl rfl rfl (by decide)).2.1

theorem subsequent_writes (L : Int) (cs : List (List Char)) :
    ∀ s : responseLimitInterceptor, s.limitExceeded = false → s.headerWritten = true →
    s.maxSize = L → s.written + ((cs.flatten).length : Int) ≤ L →
    (runWrites s cs).1.underlying.body = s.underlying.body ∧
    (runWrites s cs).1.buffer = s.buffer ++ cs.flatten ∧
    (runWrites s cs).1.Flush = (runWrites s cs).1 ∧
    (runWrites s cs).2 = cs.map (fun c => (c.length, none)) := by
  induction cs with
  | nil =>
      intro s hle hhw hmx hfit
      refine ⟨rfl, by simp [runWrites], ?_, rfl⟩
      unfold responseLimitInterceptor.Flush
      rw [if_neg (by simp [runWrites, hhw])]
  | cons c rest ih =>
      intro s hle hhw hmx hfit
      have hflat : ((List.flatten (c :: rest)).length : Int) =
          (c.length : Int) + ((rest.flatten).length : Int) := by
        simp [List.flatten_cons]
      have hfitc : ¬(0 < s.maxSize ∧ s.maxSize < s.written + c.length) := by
        rintro ⟨-, hlt⟩
        rw [hmx] at hlt
        have : (0 : Int) ≤ ((rest.flatten).length : Int) := Int.ofNat_nonneg _
        omega
      have hw := Write_hw_accept s c hle hhw hfitc
      have hrec := ih ({ s with buffer := s.buffer ++ c, written := s.written + c.length })
        hle hhw hmx (by dsimp only; omega)
      refine ⟨?_, ?_, ?_, ?_⟩
      · rw [show (runWrites s (c :: rest)).1 =
            (runWrites ({ s with buffer := s.buffer ++ c, written := s.written + c.length }) rest).1 by
              simp [runWrites, hw]]
        exact hrec.1
      · rw [show (runWrites s (c :: rest)).1 =
            (runWrites ({ s with buffer := s.buffer ++ c, written := s.written + c.length }) rest).1 by
              simp [runWrites, hw]]
        rw [hrec.2.1]
        simp
      · rw [show (runWrites s (c :: rest)).1 =
            (runWrites ({ s with buffer := s.buffer ++ c, written := s.written + c.length }) rest).1 by
              simp [runWrites, hw]]
        exact hrec.2.2.1
      · rw [show (runWrites s (c :: rest)).2 =
            (s.Write c).2 ::
              (runWrites ({ s with buffer := s.buffer ++ c, written := s.written + c.length }) rest).2 by
              simp [runWrites, hw]]
        rw [hrec.2.2.2, hw]
        simp

/-- C4: with a positive limit and a body within the limit arriving in
several Write calls, only the first chunk reaches the downstream writer:
every later chunk stays in the internal buffer (Flush forwards nothing once
headers are written), while every Write call still reports full success. -/
theorem later_writes_buffered (L : Int) (path : String) (c1 : List Char)
    (cs : List (List Char)) (hL : 0 < L)
    (hfit : ((c1.length : Int) + ((cs.flatten).length : Int)) ≤ L) :
    (runWrites (initInterceptor L path) (c1 :: cs)).1.underlying.body = c1 ∧
    (runWrites (initInterceptor L path) (c1 :: cs)).1.buffer = cs.flatten ∧
    ((runWrites (initInterceptor L path) (c1 :: cs)).1.Flush).underlying.body = c1 ∧
    (runWrites (initInterceptor L path) (c1 :: cs)).2 =
      (c1 :: cs).map (fun c => (c.length, none)) := by
  have htrig2 : ((({ initInterceptor L path with
      originalHeaders := mergeHeaders (initInterceptor L path).originalHeaders
        (initInterceptor L path).underlying.header
    } : responseLimitInterceptor)).checkContentLength).2 = false := by
    simp [initInterceptor, newResponseLimitInterceptor,
      responseLimitInterceptor.checkContentLength, mergeHeaders, emptyHeaders,
      Headers.get]
  have hfitc : ¬(0 < (initInterceptor L path).maxSize ∧
      (initInterceptor L path).maxSize <
        (initInterceptor L path).written + c1.length) := by
    rintro ⟨-, hlt⟩
    simp only [initInterceptor, newResponseLimitInterceptor] at hlt
    have : (0 : Int) ≤ ((cs.flatten).length : Int) := Int.ofNat_nonneg _
    omega
  have hw := Write_first_accept (initInterceptor L path) c1 rfl rfl htrig2 hfitc
  rcases ccl_cases ({ initInterceptor L path with
      originalHeaders := mergeHeaders (initInterceptor L path).originalHeaders
        (initInterceptor L path).underlying.header
    } : responseLimitInterceptor) with h | h
  case inr => rw [h] at htrig2; simp at htrig2
  rw [h] at hw
  dsimp only at hw
  obtain ⟨hb, hbuf, hsse, hhw1, hle1, hwr1, hmx1, hp1⟩ :=
    flushBuffer_spec ({ ({ initInterceptor L path with
        originalHeaders := mergeHeaders (initInterceptor L path).originalHeaders
          (initInterceptor L path).underlying.header
      } : responseLimitInterceptor) with
      buffer := ({ initInterceptor L path with
        originalHeaders := mergeHeaders (initInterceptor L path).originalHeaders
          (initInterceptor L path).underlying.header
      } : responseLimitInterceptor).buffer ++ c1,
      written := (initInterceptor L path).written + c1.length
    } : responseLimitInterceptor) rfl
  have hrun1 : runWrites (initInterceptor L path) (c1 :: cs) =
      ((runWrites (({ ({ initInterceptor L path with
          originalHeaders := mergeHeaders (initInterceptor L path).originalHeaders
            (initInterceptor L path).underlying.header
        } : responseLimitInterceptor) with
        buffer := ({ initInterceptor L path with
          originalHeaders := mergeHeaders (initInterceptor L path).originalHeaders
            (initInterceptor L path).underlying.header
        } : responseLimitInterceptor).buffer ++ c1,
        written := (initInterceptor L path).written + c1.length
      } : responseLimitInterceptor).flushBuffer) cs).1,
      (c1.length, none) ::
      (runWrites (({ ({ initInterceptor L path with
          originalHeaders := mergeHeaders (initInterceptor L path).originalHeaders
            (initInterceptor L path).underlying.header
        } : responseLimitInterceptor) with
        buffer := ({ initInterceptor L path with
          originalHeaders := mergeHeaders (initInterceptor L path).originalHeaders
            (initInterceptor L path).underlying.header
        } : responseLimitInterceptor).buffer ++ c1,
        written := (initInterceptor L path).written + c1.length
      } : responseLimitInterceptor).flushBuffer) cs).2) := by
    simp [runWrites, hw]
  have hrec := subsequent_writes L cs _ hle1 hhw1 hmx1 (by
    rw [hwr1]
    simp only [initInterceptor, newResponseLimitInterceptor]
    omega)
  refine ⟨?_, ?_, ?_, ?_⟩
  · rw [hrun1]
    dsimp only
    rw [hrec.1, hb]
    simp [initInterceptor, newResponseLimitInterceptor]
  · rw [hrun1]
    dsimp only
    rw [hrec.2.1, hbuf]
    simp
  · rw [hrun1]
    dsimp only
    rw [hrec.2.2.1, hrec.1, hb]
    simp [initInterceptor, newResponseLimitInterceptor]
  · rw [hrun1]
    dsimp only
    rw [hrec.2.2.2]
    simp


theorem later_writes_buffered_witness :
    (runWrites (initInterceptor 10 "/p") (['a'] :: [['b'], ['c']])).1.underlying.body = ['a'] ∧
    (runWrites (initInterceptor 10 "/p") (['a'] :: [['b'], ['c']])).1.buffer = [['b'], ['c']].flatten ∧
    ((runWrites (initInterceptor 10 "/p") (['a'] :: [['b'], ['c']])).1.Flush).underlying.body = ['a'] ∧
    (runWrites (initInterceptor 10 "/p") (['a'] :: [['b'], ['c']])).2 =
      (['a'] :: [['b'], ['c']]).map (fun c => (c.length, none)) :=
  later_writes_buffered 10 "/p" ['a'] [['b'], ['c']] (by decide) (by decide)

theorem interceptor_body_bounded_witness :
    ((runOps (initInterceptor 3 "/p") [.write ['a', 'b']]).underlying.body <+:
        upstreamBytes [.write ['a', 'b']] ∧
      ((runOps (initInterceptor 3 "/p") [.write ['a', 'b']]).underlying.body.length : Int) ≤ 3) ∨
    (runOps (initInterceptor 3 "/p") [.write ['a', 'b']]).underlying.body =
      errorResponseBody 3 "/p" :=
  interceptor_body_bounded 3 "/p" [.write ['a', 'b']] (by decide)

end Dito
